import Mathlib

/-!
Verification development for the `the-all-seeing-crab` ray tracer.

Shallow embedding conventions:
* `f64` values are modelled by exact rationals (`ℚ`).  Division follows the
  Lean convention `x / 0 = 0`; statements that depend on a division therefore
  carry nonzero-denominator hypotheses where the source relies on IEEE
  infinities.
* `f64::sqrt` and `f64::tan` are transcendental; functions that use them take
  the square-root map as an explicit argument `sqrtf : ℚ → ℚ`, and theorems
  hypothesise `sqrtf d * sqrtf d = d ∧ 0 ≤ sqrtf d` at the points where the
  source takes a square root.  `ratSqrt` below is an executable instance that
  is exact on perfect squares, used for concrete evaluations.
* Trait objects (`Box<dyn Hittable>`, `&dyn Material`) are modelled by record
  types of functions (`Prim`) and by numeric identifiers (`mat : ℕ`).
* Randomness (`rand::random`) is modelled by passing the drawn values as
  explicit arguments.
-/

/-- `Vec3` (vec3.rs:23-27): three `f64` components, modelled over `ℚ`. -/
structure Vec3 where
  x : ℚ
  y : ℚ
  z : ℚ
deriving DecidableEq

instance : Add Vec3 := ⟨fun a b => ⟨a.x + b.x, a.y + b.y, a.z + b.z⟩⟩

instance : Sub Vec3 := ⟨fun a b => ⟨a.x - b.x, a.y - b.y, a.z - b.z⟩⟩

instance : Neg Vec3 := ⟨fun a => ⟨-a.x, -a.y, -a.z⟩⟩

/-- Scalar multiplication `f64 * Vec3` (vec3.rs:151-157). -/
instance : SMul ℚ Vec3 := ⟨fun q v => ⟨q * v.x, q * v.y, q * v.z⟩⟩

/-- Componentwise `Vec3 * Vec3` (vec3.rs:127-137). -/
instance : Mul Vec3 := ⟨fun a b => ⟨a.x * b.x, a.y * b.y, a.z * b.z⟩⟩

/-- `Vec3::zero` (vec3.rs:34-36). -/
def Vec3.zero : Vec3 := ⟨0, 0, 0⟩

/-- `Vec3::one` (vec3.rs:39-45). -/
def Vec3.one : Vec3 := ⟨1, 1, 1⟩

/-- `Div<f64> for Vec3` (vec3.rs:167-173): `self * (1.0 / rhs)`. -/
def Vec3.divQ (v : Vec3) (q : ℚ) : Vec3 := (1 / q) • v

/-- `Vec3::length_squared` (vec3.rs:95-97). -/
def Vec3.lengthSquared (v : Vec3) : ℚ := v.x * v.x + v.y * v.y + v.z * v.z

/-- `Vec3::dot` (vec3.rs:103-105). -/
def Vec3.dot (a b : Vec3) : ℚ := a.x * b.x + a.y * b.y + a.z * b.z

/-- `Vec3::cross` (vec3.rs:108-114). -/
def Vec3.cross (a b : Vec3) : Vec3 :=
  ⟨a.y * b.z - a.z * b.y, a.z * b.x - a.x * b.z, a.x * b.y - a.y * b.x⟩

/-- `Vec3::to_unit` (vec3.rs:116-118): `self / self.length()`, with
`length = sqrt (length_squared)` supplied through `sqrtf`. -/
def Vec3.toUnit (sqrtf : ℚ → ℚ) (v : Vec3) : Vec3 := v.divQ (sqrtf v.lengthSquared)

/-- `Index<usize> for Vec3` (vec3.rs:181-192); the panicking branch is
unreachable because the index is a `Fin 3`. -/
def Vec3.get (v : Vec3) (a : Fin 3) : ℚ :=
  if a = 0 then v.x else if a = 1 then v.y else v.z

/-- `lerp` (vec3.rs:205-207). -/
def lerp (t : ℚ) (a b : Vec3) : Vec3 := (1 - t) • a + t • b

/-- `Ray` (ray.rs:4-8); `tm` is the time the ray exists at. -/
structure Ray where
  orig : Vec3
  dir : Vec3
  tm : ℚ
deriving DecidableEq

/-- `Ray::at` (ray.rs:31-33): `orig + dir * t`. -/
def Ray.at (r : Ray) (t : ℚ) : Vec3 := r.orig + t • r.dir

/-- `Aabb` (aabb.rs:6-9). -/
structure Aabb where
  minimum : Vec3
  maximum : Vec3
deriving DecidableEq

/-- One iteration of the loop in `Aabb::hit` (aabb.rs:21-35) for axis `a`.
Note the source's `let t_min = f64::max(t0, t_min)` / `let t_max = ...`
bindings shadow the function parameters instead of updating mutable state, so
the clipped interval is NOT carried to later iterations; every axis is checked
against the original `[t_min, t_max]` (see claim C2). -/
def Aabb.axisHit (b : Aabb) (r : Ray) (tMin tMax : ℚ) (a : Fin 3) : Bool :=
  let t0 := min ((b.minimum.get a - r.orig.get a) / r.dir.get a)
              ((b.maximum.get a - r.orig.get a) / r.dir.get a)
  let t1 := max ((b.minimum.get a - r.orig.get a) / r.dir.get a)
              ((b.maximum.get a - r.orig.get a) / r.dir.get a)
  let tMinA := max t0 tMin
  let tMaxA := min t1 tMax
  !(decide (tMaxA ≤ tMinA))

/-- `Aabb::hit` (aabb.rs:20-37).  Because the per-axis interval is not carried
over (see `Aabb.axisHit`), the early `return false` is equivalent to the
conjunction of the three independent axis checks. -/
def Aabb.hit (b : Aabb) (r : Ray) (tMin tMax : ℚ) : Bool :=
  b.axisHit r tMin tMax 0 && b.axisHit r tMin tMax 1 && b.axisHit r tMin tMax 2

/-- Modelled from the spec: the slab test as the spec describes it
("tightening `[t_min,t_max]`; returns false as soon as the interval becomes
empty"), i.e. the interval is tightened cumulatively across the three axes.
This is the intended algorithm that aabb.rs:20-37 fails to implement because
of the shadowed `let` bindings. -/
def Aabb.hitTightened (b : Aabb) (r : Ray) (tMin tMax : ℚ) : Bool :=
  (([0, 1, 2] : List (Fin 3)).foldl
    (fun st a =>
      match st with
      | none => none
      | some (lo, hi) =>
        let t0 := min ((b.minimum.get a - r.orig.get a) / r.dir.get a)
                    ((b.maximum.get a - r.orig.get a) / r.dir.get a)
        let t1 := max ((b.minimum.get a - r.orig.get a) / r.dir.get a)
                    ((b.maximum.get a - r.orig.get a) / r.dir.get a)
        let lo' := max t0 lo
        let hi' := min t1 hi
        if hi' ≤ lo' then none else some (lo', hi'))
    (some (tMin, tMax))).isSome

/-- `Aabb::surrounding_box` (aabb.rs:39-51). -/
def Aabb.surroundingBox (box0 box1 : Aabb) : Aabb :=
  ⟨⟨min box0.minimum.x box1.minimum.x,
    min box0.minimum.y box1.minimum.y,
    min box0.minimum.z box1.minimum.z⟩,
   ⟨max box0.maximum.x box1.maximum.x,
    max box0.maximum.y box1.maximum.y,
    max box0.maximum.z box1.maximum.z⟩⟩

/-- `outer` contains `inner`: componentwise `outer.min ≤ inner.min` and
`inner.max ≤ outer.max`. -/
def Aabb.containsBox (outer inner : Aabb) : Prop :=
  ∀ a : Fin 3,
    outer.minimum.get a ≤ inner.minimum.get a ∧
    inner.maximum.get a ≤ outer.maximum.get a

instance (outer inner : Aabb) : Decidable (outer.containsBox inner) := by
  unfold Aabb.containsBox; infer_instance

/-- A box is valid when its minimum corner is componentwise below its
maximum corner. -/
def Aabb.valid (b : Aabb) : Prop :=
  ∀ a : Fin 3, b.minimum.get a ≤ b.maximum.get a

instance (b : Aabb) : Decidable b.valid := by
  unfold Aabb.valid; infer_instance

/-- `HitRecord` (hittable.rs:10-22).  The `&dyn Material` pointer `mat_ptr` is
modelled by the numeric material identifier `mat`. -/
structure HitRecord where
  t : ℚ
  u : ℚ
  v : ℚ
  p : Vec3
  normal : Vec3
  frontFace : Bool
  mat : ℕ
deriving DecidableEq

/-- `HitRecord::new` (hittable.rs:25-48). -/
def HitRecord.new (t : ℚ) (uv : ℚ × ℚ) (r : Ray) (outwardNormal : Vec3)
    (material : ℕ) : HitRecord :=
  let p := r.at t
  let frontFace := decide (r.dir.dot outwardNormal < 0)
  let normal := if frontFace then outwardNormal else -outwardNormal
  ⟨t, uv.1, uv.2, p, normal, frontFace, material⟩

/-- `util::random_int` (util.rs:1-3): `min + (max - min) * rand::random::<i32>()`.
`rand::random::<i32>()` draws uniformly over ALL `i32` values (it is not a
unit-interval draw), so the result is modelled exactly with the drawn value
`rnd` as an argument. -/
def randomInt (minV maxV rnd : ℤ) : ℤ := minV + (maxV - minV) * rnd

/-- Executable square root on `ℚ`, exact on perfect squares; models
`f64::sqrt` at inputs where the float result is exact.  Used to instantiate
the `sqrtf` parameters at concrete evaluation points. -/
def ratSqrt (q : ℚ) : ℚ := (Int.sqrt q.num : ℚ) / (Nat.sqrt q.den : ℚ)

/-- `Sphere` (sphere.rs:10-17); the boxed `dyn Material` is modelled by the
numeric identifier `mat`. -/
structure Sphere where
  center0 : Vec3
  center1 : Vec3
  time0 : ℚ
  time1 : ℚ
  radius : ℚ
  mat : ℕ

/-- `Sphere::stationary` (sphere.rs:38-51). -/
def Sphere.stationary (center : Vec3) (radius : ℚ) (mat : ℕ) : Sphere :=
  ⟨center, center, 0, 0, radius, mat⟩

/-- `Sphere::center` (sphere.rs:53-60). -/
def Sphere.center (s : Sphere) (time : ℚ) : Vec3 :=
  if s.time0 = s.time1 then s.center0
  else s.center0 + ((time - s.time0) / (s.time1 - s.time0)) • (s.center1 - s.center0)

/-- `oc = r.origin() - self.center(r.time())` (sphere.rs:66). -/
def Sphere.oc (s : Sphere) (r : Ray) : Vec3 := r.orig - s.center r.tm

/-- `a = r.direction().length_squared()` (sphere.rs:67). -/
def Sphere.aCoeff (r : Ray) : ℚ := r.dir.lengthSquared

/-- `half_b = oc.dot(r.direction())` (sphere.rs:68). -/
def Sphere.halfB (s : Sphere) (r : Ray) : ℚ := (s.oc r).dot r.dir

/-- `c = oc.length_squared() - radius * radius` (sphere.rs:69). -/
def Sphere.cCoeff (s : Sphere) (r : Ray) : ℚ :=
  (s.oc r).lengthSquared - s.radius * s.radius

/-- `discriminant = half_b * half_b - a * c` (sphere.rs:71). -/
def Sphere.disc (s : Sphere) (r : Ray) : ℚ :=
  s.halfB r * s.halfB r - Sphere.aCoeff r * s.cCoeff r

/-- The first root tried, `(-half_b - sqrtd) / a` (sphere.rs:77). -/
def Sphere.root1 (sqrtf : ℚ → ℚ) (s : Sphere) (r : Ray) : ℚ :=
  (-s.halfB r - sqrtf (s.disc r)) / Sphere.aCoeff r

/-- The fallback root, `(-half_b + sqrtd) / a` (sphere.rs:79). -/
def Sphere.root2 (sqrtf : ℚ → ℚ) (s : Sphere) (r : Ray) : ℚ :=
  (-s.halfB r + sqrtf (s.disc r)) / Sphere.aCoeff r

/-- `Sphere::hit` (sphere.rs:65-89).  NOTE: the source call at sphere.rs:88 is
`HitRecord::new(t, r, outward_normal, &*self.material)`, which supplies no
`(u, v)` although hittable.rs:25-31 declares a `(u, v): (f64, f64)` parameter
— the call does not type-check.  The record is completed here with `(0, 0)`;
claim C5 records this divergence. -/
def Sphere.hit (sqrtf : ℚ → ℚ) (s : Sphere) (r : Ray) (tMin tMax : ℚ) :
    Option HitRecord :=
  if s.disc r < 0 then none
  else
    let mk := fun (root : ℚ) =>
      let t := root
      let p := r.at t
      let outwardNormal := (p - s.center r.tm).divQ s.radius
      HitRecord.new t (0, 0) r outwardNormal s.mat
    if s.root1 sqrtf r < tMin ∨ tMax < s.root1 sqrtf r then
      if s.root2 sqrtf r < tMin ∨ tMax < s.root2 sqrtf r then none
      else some (mk (s.root2 sqrtf r))
    else some (mk (s.root1 sqrtf r))

/-- `Sphere::hit` as invoked with `t_max = f64::INFINITY` (main.rs:370): the
`t_max < root` comparisons are always false. -/
def Sphere.hitInf (sqrtf : ℚ → ℚ) (s : Sphere) (r : Ray) (tMin : ℚ) :
    Option HitRecord :=
  if s.disc r < 0 then none
  else
    let mk := fun (root : ℚ) =>
      let t := root
      let p := r.at t
      let outwardNormal := (p - s.center r.tm).divQ s.radius
      HitRecord.new t (0, 0) r outwardNormal s.mat
    if s.root1 sqrtf r < tMin then
      if s.root2 sqrtf r < tMin then none
      else some (mk (s.root2 sqrtf r))
    else some (mk (s.root1 sqrtf r))

/-- `Sphere::bounding_box` (sphere.rs:91-102). -/
def Sphere.boundingBox (s : Sphere) (time0 time1 : ℚ) : Aabb :=
  let rv : Vec3 := ⟨s.radius, s.radius, s.radius⟩
  let box0 : Aabb := ⟨s.center time0 - rv, s.center time0 + rv⟩
  let box1 : Aabb := ⟨s.center time1 - rv, s.center time1 + rv⟩
  Aabb.surroundingBox box0 box1

/-- `RayColorMode` (main.rs:351-361); `depth` in the `material` mode is the
`i32` bounce budget. -/
inductive RayColorMode where
  | blockColor (color : Vec3)
  | shadeNormal
  | depth (maxT : ℚ)
  | material (depth : ℤ)
deriving DecidableEq

/-- The early-exit test of `ray_color` (main.rs:364-368): in `Material` mode
with `depth <= 0` the function returns black immediately. -/
def RayColorMode.cutoff : RayColorMode → Bool
  | .material d => decide (d ≤ 0)
  | _ => false

/-- Structural-recursion fuel for `ray_color`: the bounce budget of the
`Material` mode.  The Rust recursion terminates because `depth` strictly
decreases; `fuel` is exactly that measure. -/
def RayColorMode.fuel : RayColorMode → ℕ
  | .material d => d.toNat
  | _ => 0

/-- The miss colour of `ray_color` (main.rs:389-395): the configured
background, or the vertical white-to-sky gradient on the unit direction's
`y`. -/
def skyGradient (sqrtf : ℚ → ℚ) (r : Ray) : Vec3 :=
  let unitDirection := r.dir.toUnit sqrtf
  let t := (1 / 2 : ℚ) * (unitDirection.y + 1)
  let ground : Vec3 := ⟨1, 1, 1⟩
  let sky : Vec3 := ⟨1 / 2, 7 / 10, 1⟩
  lerp t ground sky

/-- `ray_color` (main.rs:363-396), structurally recursive on the fuel
`depth.toNat`.  The world is the abstract hit map `world r`, standing for
`world.hit(r, 0.001, INFINITY)` (main.rs:370); `em` and `sc` stand for
`Material::emitted` and `Material::scatter` of the material identified by
`rec.mat`.  The `fuel = 0` arm is unreachable when `fuel = mode.fuel`
(the cutoff check has already ruled out `depth ≤ 0`). -/
def rayColorFuel (em : ℕ → ℚ → ℚ → Vec3 → Vec3)
    (sc : ℕ → Ray → HitRecord → Option (Vec3 × Ray))
    (world : Ray → Option HitRecord) (background : Option Vec3)
    (sqrtf : ℚ → ℚ) : ℕ → RayColorMode → Ray → Vec3
  | fuel, mode, r =>
    if mode.cutoff then Vec3.zero
    else
      match world r with
      | some rec =>
        match mode with
        | .blockColor color => color
        | .shadeNormal => (1 / 2 : ℚ) • (rec.normal + Vec3.one)
        | .depth maxT => Vec3.one - (rec.t / maxT) • Vec3.one
        | .material depth =>
          let emittedC := em rec.mat rec.u rec.v rec.p
          match sc rec.mat r rec with
          | some (attenuation, scattered) =>
            match fuel with
            | 0 => Vec3.zero
            | f + 1 =>
              emittedC + attenuation *
                rayColorFuel em sc world background sqrtf f
                  (.material (depth - 1)) scattered
          | none => emittedC
      | none => background.getD (skyGradient sqrtf r)

/-- `ray_color` (main.rs:363-396). -/
def rayColor (em : ℕ → ℚ → ℚ → Vec3 → Vec3)
    (sc : ℕ → Ray → HitRecord → Option (Vec3 × Ray))
    (world : Ray → Option HitRecord) (background : Option Vec3)
    (sqrtf : ℚ → ℚ) (mode : RayColorMode) (r : Ray) : Vec3 :=
  rayColorFuel em sc world background sqrtf mode.fuel mode r

/-- `CameraSettings` (camera.rs:8-17). -/
structure CameraSettings where
  lookFrom : Vec3
  lookAt : Vec3
  vup : Vec3
  vfov : ℚ
  focusDist : ℚ
  aperture : ℚ
  time0 : ℚ
  time1 : ℚ

/-- `Camera` (camera.rs:70-83). -/
structure Camera where
  origin : Vec3
  lowerLeftCorner : Vec3
  horizontal : Vec3
  vertical : Vec3
  u : Vec3
  v : Vec3
  w : Vec3
  lensRadius : ℚ
  time0 : ℚ
  time1 : ℚ

/-- `Camera::new` (camera.rs:86-134).  `h = tan(degrees_to_radians(vfov)/2)`
is transcendental and is supplied as the argument `tanHalfVfov`. -/
def Camera.create (settings : CameraSettings) (aspectRatio : ℚ)
    (tanHalfVfov : ℚ) (sqrtf : ℚ → ℚ) : Camera :=
  let h := tanHalfVfov
  let viewportHeight : ℚ := 2 * h
  let viewportWidth : ℚ := aspectRatio * viewportHeight
  let w := (settings.lookFrom - settings.lookAt).toUnit sqrtf
  let u := (settings.vup.cross w).toUnit sqrtf
  let v := w.cross u
  let origin := settings.lookFrom
  let horizontal := (settings.focusDist * viewportWidth) • u
  let vertical := (settings.focusDist * viewportHeight) • v
  let lowerLeftCorner :=
    origin - horizontal.divQ 2 - vertical.divQ 2 - settings.focusDist • w
  ⟨origin, lowerLeftCorner, horizontal, vertical, u, v, w,
    settings.aperture / 2, settings.time0, settings.time1⟩

/-- `Camera::get_ray` (camera.rs:136-145).  `random_in_unit_disk()` is called
at camera.rs:137 but is not defined under src/; the drawn disk point is the
argument `diskSample`.  The ray time `random_double(time0, time1)` is
`time0 + (time1 - time0) * x` (util.rs:5-7) with unit draw `timeSample`. -/
def Camera.getRay (cam : Camera) (diskSample : Vec3) (timeSample : ℚ)
    (s t : ℚ) : Ray :=
  let rd := cam.lensRadius • diskSample
  let offset := rd.x • cam.u + rd.y • cam.v
  ⟨cam.origin + offset,
   cam.lowerLeftCorner + s • cam.horizontal + t • cam.vertical
     - cam.origin - offset,
   cam.time0 + (cam.time1 - cam.time0) * timeSample⟩

/-- The random draws consumed by one sample of the per-pixel loop
(main.rs:624-635): the two jitters `util::random_double_unit()`, the lens
disk point and the shutter-time unit draw of `Camera::get_ray`. -/
structure SampleDraws where
  jitterU : ℚ
  jitterV : ℚ
  disk : Vec3
  timeU : ℚ

/-- The per-pixel sampling loop of the render worker (main.rs:623-636):
`samples_per_pixel` rays, each jittered inside the pixel, accumulated into
`pixel_color`. -/
def renderPixel (em : ℕ → ℚ → ℚ → Vec3 → Vec3)
    (sc : ℕ → Ray → HitRecord → Option (Vec3 × Ray))
    (world : Ray → Option HitRecord) (background : Option Vec3)
    (sqrtf : ℚ → ℚ) (mode : RayColorMode) (cam : Camera)
    (imageWidth imageHeight i j : ℕ) (samplesPerPixel : ℕ)
    (draws : ℕ → SampleDraws) : Vec3 :=
  (List.range samplesPerPixel).foldl
    (fun pixelColor n =>
      let d := draws n
      let u := ((i : ℚ) + d.jitterU) / ((imageWidth : ℚ) - 1)
      let v := ((j : ℚ) + d.jitterV) / ((imageHeight : ℚ) - 1)
      let r := cam.getRay d.disk d.timeU u v
      pixelColor + rayColor em sc world background sqrtf mode r)
    Vec3.zero

/-- An `ImageLine` render result (main.rs:345-348); the pixel payload is kept
abstract. -/
structure ImageLine where
  lineNum : ℕ
  linePixels : List Vec3
deriving DecidableEq

/-- The per-row worker closure of `run_render_loop` (main.rs:615-653).  The
two `abort_checker.load(...)` observations (main.rs:616 and main.rs:642) are
the arguments `obs1` (before the sampling loop) and `obs2` (immediately
before sending); the row's pixel computation is the abstract `renderLine`.
The result is `some line` exactly when the row is sent on the channel. -/
def workerRow (obs1 obs2 : Bool) (renderLine : ℕ → List Vec3) (j : ℕ) :
    Option ImageLine :=
  if obs1 then none
  else
    let linePixels := renderLine j
    if obs2 then none
    else some ⟨j, linePixels⟩

/-- A primitive stored in a `HittableList` or a BVH: the `Box<dyn Hittable>`
trait object, i.e. its `hit` method and its `bounding_box` method.  Claims
C1's premise "primitives that all have bounding boxes" makes `bounding_box`
total (`box`), so the `unwrap`s of bvh_node.rs:55-62,82-87 always succeed. -/
structure Prim where
  hit : Ray → ℚ → ℚ → Option HitRecord
  box : ℚ → ℚ → Aabb

/-- `BvhNode::box_compare` (bvh_node.rs:81-90): compare the bounding boxes
(at times `0.0, 0.0`) by the `axis` component of their minimum corner.
`partial_cmp(..).unwrap()` is total on `ℚ`. -/
def boxCompare (a b : Prim) (axis : Fin 3) : Ordering :=
  compare ((a.box 0 0).minimum.get axis) ((b.box 0 0).minimum.get axis)

/-- A BVH subtree, i.e. a `Box<dyn Hittable>` child of a `BvhNode`
(bvh_node.rs:10-15): either a primitive leaf, or a node with `left`,
`right_maybe` (split into `node1` for `None` and `node2` for `Some`), and the
cached box `abox`. -/
inductive Bvh where
  | leaf (p : Prim)
  | node1 (left : Bvh) (abox : Aabb)
  | node2 (left right : Bvh) (abox : Aabb)

/-- `bounding_box` of a BVH child (bvh_node.rs:120-122 for nodes, the
primitive's own `bounding_box` for leaves). -/
def Bvh.boundingBox (b : Bvh) (time0 time1 : ℚ) : Aabb :=
  match b with
  | .leaf p => p.box time0 time1
  | .node1 _ abox => abox
  | .node2 _ _ abox => abox

/-- `BvhNode::hit` (bvh_node.rs:94-118) (`leaf` dispatches to the wrapped
primitive's `hit`).  In `node2`, `hitLeftTime` is
`hit_left.as_ref().map(|h| h.t).unwrap_or(t_max)` (bvh_node.rs:102), and the
final match mirrors bvh_node.rs:107-117. -/
def Bvh.hit : Bvh → Ray → ℚ → ℚ → Option HitRecord
  | .leaf p, r, tMin, tMax => p.hit r tMin tMax
  | .node1 left abox, r, tMin, tMax =>
    if !(abox.hit r tMin tMax) then none
    else left.hit r tMin tMax
  | .node2 left right abox, r, tMin, tMax =>
    if !(abox.hit r tMin tMax) then none
    else
      let hitLeft := left.hit r tMin tMax
      let hitLeftTime := (hitLeft.map (fun h => h.t)).getD tMax
      let hitRight := right.hit r tMin hitLeftTime
      match hitLeft, hitRight with
      | none, rightRes => rightRes
      | leftRes, none => leftRes
      | some l, some rr => if l.t < rr.t then some l else some rr

/-- `BvhNode::new` (bvh_node.rs:18-69), structurally recursive on the fuel
(an upper bound on the list length; `buildBvh` instantiates it with the
length itself, making the `0, _::_::_::_` arm unreachable).  The random axis
draw `random_int(0, 2)` of bvh_node.rs:21 is modelled by the oracle `axisOf`
applied to the current object list.  `objects.sort_by(comparator)`
(bvh_node.rs:46) is a stable merge sort by `comparator(a,b) != Greater`;
`split_off(mid)` keeps the first `mid` objects and returns the rest.  The
`assert!(objects.len() != 0)` (bvh_node.rs:30) is the `none` result for `[]`.
For two objects, the two `pop()`s bind `second` to the last element and
`first` to the first (bvh_node.rs:35-44). -/
def buildBvhFuel (axisOf : List Prim → Fin 3) (time0 time1 : ℚ) :
    ℕ → List Prim → Option Bvh
  | _, [] => none
  | _, [p] => some (.node1 (.leaf p) (p.box time0 time1))
  | _, [p, q] =>
    let axis := axisOf [p, q]
    if boxCompare p q axis = Ordering.lt then
      some (.node2 (.leaf p) (.leaf q)
        (Aabb.surroundingBox (p.box time0 time1) (q.box time0 time1)))
    else
      some (.node2 (.leaf q) (.leaf p)
        (Aabb.surroundingBox (q.box time0 time1) (p.box time0 time1)))
  | 0, _ :: _ :: _ :: _ => none
  | f + 1, a :: b :: c :: rest =>
    let l := a :: b :: c :: rest
    let axis := axisOf l
    let sorted := l.mergeSort (fun a b => !(boxCompare a b axis == Ordering.gt))
    let mid := sorted.length / 2
    let firstHalf := sorted.take mid
    let secondHalf := sorted.drop mid
    match buildBvhFuel axisOf time0 time1 f firstHalf,
          buildBvhFuel axisOf time0 time1 f secondHalf with
    | some leftT, some rightT =>
      some (.node2 leftT rightT
        (Aabb.surroundingBox (leftT.boundingBox time0 time1)
          (rightT.boundingBox time0 time1)))
    | _, _ => none

/-- `BvhNode::new` (bvh_node.rs:18-69) on an object list. -/
def buildBvh (axisOf : List Prim → Fin 3) (time0 time1 : ℚ)
    (objects : List Prim) : Option Bvh :=
  buildBvhFuel axisOf time0 time1 objects.length objects

/-- The loop of `HittableList::hit` (hittable.rs:72-83): `best` is
`best_hit`, and each object is queried up to `new_t_max`, the current best
`t` (or `t_max` when there is none). -/
def listHitAux (r : Ray) (tMin tMax : ℚ) :
    Option HitRecord → List Prim → Option HitRecord
  | best, [] => best
  | best, p :: rest =>
    let newTMax := (best.map (fun h => h.t)).getD tMax
    match p.hit r tMin newTMax with
    | some newHit => listHitAux r tMin tMax (some newHit) rest
    | none => listHitAux r tMin tMax best rest

/-- `HittableList::hit` (hittable.rs:72-83). -/
def listHit (objects : List Prim) (r : Ray) (tMin tMax : ℚ) :
    Option HitRecord :=
  listHitAux r tMin tMax none objects

/-- Well-behavedness of a primitive's `hit`/`bounding_box` pair, the implicit
contract of the `Hittable` trait that geometric primitives satisfy: a
reported hit lies in the queried window; shrinking the window's upper end
keeps the same hit while it remains inside and drops it (with no substitute)
once outside, and misses stay misses; a reported hit implies the primitive's
bounding box passes the slab test for that query; and the bounding box is
valid. -/
structure PrimWf (p : Prim) (t0 t1 : ℚ) : Prop where
  hit_mem : ∀ r a b h, p.hit r a b = some h → a ≤ h.t ∧ h.t ≤ b
  hit_shrink : ∀ r a b b', b' ≤ b → ∀ h, p.hit r a b = some h →
    (h.t ≤ b' → p.hit r a b' = some h) ∧ (b' < h.t → p.hit r a b' = none)
  miss_shrink : ∀ r a b b', b' ≤ b → p.hit r a b = none → p.hit r a b' = none
  hit_box : ∀ r a b h, p.hit r a b = some h → (p.box t0 t1).hit r a b = true
  box_valid : (p.box t0 t1).valid

/-- The primitives at the leaves of a BVH subtree, in order. -/
def Bvh.prims : Bvh → List Prim
  | .leaf p => [p]
  | .node1 left _ => left.prims
  | .node2 left right _ => left.prims ++ right.prims

/-- Structural invariant of BVH nodes established by `BvhNode::new`: every
node's cached `abox` contains the bounding boxes of its children
(bvh_node.rs:55-62). -/
def Bvh.good (t0 t1 : ℚ) : Bvh → Prop
  | .leaf _ => True
  | .node1 left abox => Bvh.good t0 t1 left ∧
      abox.containsBox (left.boundingBox t0 t1)
  | .node2 left right abox => Bvh.good t0 t1 left ∧ Bvh.good t0 t1 right ∧
      abox.containsBox (left.boundingBox t0 t1) ∧
      abox.containsBox (right.boundingBox t0 t1)

/-- Concrete box for claim C2: the unit cube. -/
def c2Box : Aabb := ⟨⟨0, 0, 0⟩, ⟨1, 1, 1⟩⟩

/-- Concrete ray for claim C2: its per-axis slab intervals are `[5,6]`,
`[0,1]` and `[2,3]` — pairwise disjoint, so no single parameter `t` is inside
all three slabs and the ray misses the cube. -/
def c2Ray : Ray := ⟨⟨-5, 0, -2⟩, ⟨1, 1, 1⟩, 0⟩

/-- Concrete sphere for claim C4's counterexample: radius `-1`, the
hollow-glass trick used in `create_fixed_scene` (main.rs:464-468, radius
`-0.45`). -/
def c4Sphere : Sphere := Sphere.stationary ⟨0, 0, 0⟩ (-1) 0

/-- Ray through `c4Sphere` from outside along `z`. -/
def c4Ray : Ray := ⟨⟨0, 0, -2⟩, ⟨0, 0, 1⟩, 0⟩

/-- Concrete positive-radius sphere for claim C4's witness. -/
def c4wSphere : Sphere := Sphere.stationary ⟨0, 0, -3⟩ 1 7

/-- Ray hitting `c4wSphere` head-on; its discriminant is the perfect square
`1`. -/
def c4wRay : Ray := ⟨⟨0, 0, 0⟩, ⟨0, 0, -1⟩, 0⟩

/-- Wrap a `Sphere` as a `Prim` (its `impl Hittable`, sphere.rs:63-103),
with `ratSqrt` for `f64::sqrt`. -/
def spherePrim (s : Sphere) : Prim :=
  ⟨fun r a b => Sphere.hit ratSqrt s r a b, fun t0 t1 => s.boundingBox t0 t1⟩

/-- Claim C1's counterexample, first sphere (material id 0): centre
`(6,3,6)`, radius 3. -/
def c1SphereA : Sphere := Sphere.stationary ⟨6, 3, 6⟩ 3 0

/-- Claim C1's counterexample, second sphere (material id 1): centre
`(10,5,10)`, radius 9.  Both spheres are first hit by `c1Ray` at exactly
`t = 2`. -/
def c1SphereB : Sphere := Sphere.stationary ⟨10, 5, 10⟩ 9 1

/-- Ray from the origin along `(2,1,2)`; hits both `c1SphereA` and
`c1SphereB` at `t = 2` (tie). -/
def c1Ray : Ray := ⟨⟨0, 0, 0⟩, ⟨2, 1, 2⟩, 0⟩

/-- A trivially well-behaved primitive (never hits) used to instantiate the
C1 theorem's witness. -/
def pNone : Prim := ⟨fun _ _ _ => none, fun _ _ => ⟨⟨0, 0, 0⟩, ⟨1, 1, 1⟩⟩⟩

/-- A material environment with no emission (used for concrete render
evaluations in modes that never consult materials). -/
def em0 : ℕ → ℚ → ℚ → Vec3 → Vec3 := fun _ _ _ _ => Vec3.zero

/-- A material environment that never scatters. -/
def sc0 : ℕ → Ray → HitRecord → Option (Vec3 × Ray) := fun _ _ _ => none

/-- Claim C9's camera settings: 90° vertical field of view (so
`tan(vfov/2) = 1`), aperture `0`, degenerate shutter interval. -/
def c9Settings : CameraSettings :=
  ⟨⟨0, 0, 0⟩, ⟨0, 0, -1⟩, ⟨0, 1, 0⟩, 90, 1, 0, 0, 0⟩

/-- Claim C9's camera (aspect ratio 1, `tan(radians(90)/2) = 1`). -/
def c9Camera : Camera := Camera.create c9Settings 1 1 ratSqrt

/-- Claim C9's single sphere: centred at `(0,0,-3)` with radius 3 (ray
discriminants from the camera origin are then the perfect square 9). -/
def c9Sphere : Sphere := Sphere.stationary ⟨0, 0, -3⟩ 3 0

/-- Claim C9's world: the single sphere queried at
`hit(r, 0.001, INFINITY)`. -/
def c9World : Ray → Option HitRecord :=
  fun r => Sphere.hitInf ratSqrt c9Sphere r (1 / 1000)

/-- One RNG outcome: all draws zero. -/
def c9DrawsA : ℕ → SampleDraws := fun _ => ⟨0, 0, ⟨0, 0, 0⟩, 0⟩

/-- A second RNG outcome: pixel jitter `1/2` in `u` (and different lens/time
draws, which are irrelevant at aperture 0). -/
def c9DrawsB : ℕ → SampleDraws := fun _ => ⟨1 / 2, 0, ⟨1 / 2, 1 / 2, 0⟩, 1 / 3⟩

lemma Vec3.add_def (a b : Vec3) : a + b = ⟨a.x + b.x, a.y + b.y, a.z + b.z⟩ := rfl

lemma Vec3.sub_def (a b : Vec3) : a - b = ⟨a.x - b.x, a.y - b.y, a.z - b.z⟩ := rfl

lemma Vec3.neg_def (a : Vec3) : -a = ⟨-a.x, -a.y, -a.z⟩ := rfl

lemma Vec3.smul_def (q : ℚ) (v : Vec3) : q • v = ⟨q * v.x, q * v.y, q * v.z⟩ := rfl

lemma Vec3.mul_def (a b : Vec3) : a * b = ⟨a.x * b.x, a.y * b.y, a.z * b.z⟩ := rfl

lemma Vec3.get_zero (v : Vec3) : v.get 0 = v.x := rfl

lemma Vec3.get_one (v : Vec3) : v.get 1 = v.y := rfl

lemma Vec3.get_two (v : Vec3) : v.get 2 = v.z := rfl

lemma ratSqrt_coe_nat_mul_self (n : ℕ) : ratSqrt ((n : ℚ) * n) = n := by
  have h0 : ((n : ℚ) * n) = ((n * n : ℕ) : ℚ) := by push_cast; ring
  rw [h0]
  unfold ratSqrt
  rw [Rat.num_natCast, Rat.den_natCast]
  have h1 : ((n * n : ℕ) : ℤ) = (n : ℤ) * n := by push_cast; ring
  rw [h1, Int.sqrt_eq, Nat.sqrt_one]
  simp

lemma ratSqrt_one : ratSqrt 1 = 1 := by
  have h := ratSqrt_coe_nat_mul_self 1
  norm_num at h
  exact h

lemma ratSqrt_nine : ratSqrt 9 = 3 := by
  have h := ratSqrt_coe_nat_mul_self 3
  norm_num at h
  exact h

lemma ratSqrt_81 : ratSqrt 81 = 9 := by
  have h := ratSqrt_coe_nat_mul_self 9
  norm_num at h
  exact h

lemma ratSqrt_729 : ratSqrt 729 = 27 := by
  have h := ratSqrt_coe_nat_mul_self 27
  norm_num at h
  exact h

lemma Aabb.containsBox_refl (b : Aabb) : b.containsBox b :=
  fun _ => ⟨le_refl _, le_refl _⟩

lemma Aabb.containsBox_trans {a b c : Aabb} (h1 : a.containsBox b)
    (h2 : b.containsBox c) : a.containsBox c :=
  fun i => ⟨le_trans (h1 i).1 (h2 i).1, le_trans (h2 i).2 (h1 i).2⟩

lemma Aabb.surroundingBox_contains_left (A B : Aabb) :
    (Aabb.surroundingBox A B).containsBox A := by
  intro a
  fin_cases a <;>
    simp [Aabb.surroundingBox, Vec3.get_zero, Vec3.get_one, Vec3.get_two,
      min_le_left, le_max_left]

lemma Aabb.surroundingBox_contains_right (A B : Aabb) :
    (Aabb.surroundingBox A B).containsBox B := by
  intro a
  fin_cases a <;>
    simp [Aabb.surroundingBox, Vec3.get_zero, Vec3.get_one, Vec3.get_two,
      min_le_right, le_max_right]

lemma Aabb.axisHit_true_iff (b : Aabb) (r : Ray) (tMin tMax : ℚ) (a : Fin 3) :
    b.axisHit r tMin tMax a = true ↔
      max (min ((b.minimum.get a - r.orig.get a) / r.dir.get a)
            ((b.maximum.get a - r.orig.get a) / r.dir.get a)) tMin <
        min (max ((b.minimum.get a - r.orig.get a) / r.dir.get a)
            ((b.maximum.get a - r.orig.get a) / r.dir.get a)) tMax := by
  simp only [Aabb.axisHit, Bool.not_eq_true', decide_eq_false_iff_not, not_le]

lemma Aabb.axisHit_mono {outer inner : Aabb} {r : Ray} {tMin tMax : ℚ}
    {a : Fin 3}
    (hmin : outer.minimum.get a ≤ inner.minimum.get a)
    (hmax : inner.maximum.get a ≤ outer.maximum.get a)
    (hv : inner.minimum.get a ≤ inner.maximum.get a)
    (h : inner.axisHit r tMin tMax a = true) :
    outer.axisHit r tMin tMax a = true := by
  rw [Aabb.axisHit_true_iff] at h ⊢
  set o := r.orig.get a with ho
  set d := r.dir.get a with hd
  set p := (inner.minimum.get a - o) / d with hp
  set q := (inner.maximum.get a - o) / d with hq
  set p' := (outer.minimum.get a - o) / d with hp'
  set q' := (outer.maximum.get a - o) / d with hq'
  have key : min p' q' ≤ min p q ∧ max p q ≤ max p' q' := by
    rcases lt_trichotomy d 0 with hneg | hzero | hpos
    · have h1 : p ≤ p' := by
        rw [hp, hp', div_le_div_right_of_neg hneg]
        linarith
      have h2 : q' ≤ q := by
        rw [hq, hq', div_le_div_right_of_neg hneg]
        linarith
      have h3 : q ≤ p := by
        rw [hp, hq, div_le_div_right_of_neg hneg]
        linarith
      constructor
      · exact le_min (le_trans (min_le_right _ _) (le_trans h2 h3))
          (le_trans (min_le_right _ _) h2)
      · exact max_le (le_trans h1 (le_max_left _ _))
          (le_trans (le_trans h3 h1) (le_max_left _ _))
    · rw [hp, hq, hp', hq', hzero]
      simp
    · have h1 : p' ≤ p := by
        rw [hp, hp', div_le_div_iff_of_pos_right hpos]
        linarith
      have h2 : q ≤ q' := by
        rw [hq, hq', div_le_div_iff_of_pos_right hpos]
        linarith
      have h3 : p ≤ q := by
        rw [hp, hq, div_le_div_iff_of_pos_right hpos]
        linarith
      constructor
      · exact le_min (le_trans (min_le_left _ _) h1)
          (le_trans (min_le_left _ _) (le_trans h1 h3))
      · exact max_le (le_trans (le_trans h3 h2) (le_max_right _ _))
          (le_trans h2 (le_max_right _ _))
  calc max (min p' q') tMin ≤ max (min p q) tMin := max_le_max key.1 (le_refl _)
    _ < min (max p q) tMax := h
    _ ≤ min (max p' q') tMax := min_le_min key.2 (le_refl _)

lemma Aabb.hit_mono {outer inner : Aabb} {r : Ray} {tMin tMax : ℚ}
    (hc : outer.containsBox inner) (hv : inner.valid)
    (h : inner.hit r tMin tMax = true) : outer.hit r tMin tMax = true := by
  unfold Aabb.hit at h ⊢
  simp only [Bool.and_eq_true] at h ⊢
  exact ⟨⟨Aabb.axisHit_mono (hc 0).1 (hc 0).2 (hv 0) h.1.1,
          Aabb.axisHit_mono (hc 1).1 (hc 1).2 (hv 1) h.1.2⟩,
         Aabb.axisHit_mono (hc 2).1 (hc 2).2 (hv 2) h.2⟩

lemma Aabb.surroundingBox_min_get (A B : Aabb) (a : Fin 3) :
    (Aabb.surroundingBox A B).minimum.get a =
      min (A.minimum.get a) (B.minimum.get a) := by
  fin_cases a <;> rfl

lemma Aabb.surroundingBox_max_get (A B : Aabb) (a : Fin 3) :
    (Aabb.surroundingBox A B).maximum.get a =
      max (A.maximum.get a) (B.maximum.get a) := by
  fin_cases a <;> rfl

lemma Vec3.dot_comm (v w : Vec3) : v.dot w = w.dot v := by
  unfold Vec3.dot; ring

lemma Vec3.neg_dot (v w : Vec3) : (-v).dot w = -(v.dot w) := by
  rw [Vec3.neg_def]; unfold Vec3.dot; simp; ring

/-- C10: every `HitRecord` produced by `HitRecord::new` has `front_face` true
exactly when the ray direction and the supplied outward normal have negative
dot product, stores the outward normal when `front_face` holds and its
negation otherwise, and consequently the stored normal never has positive dot
product with the ray direction. -/
theorem hitRecord_new_normal_invariant (t : ℚ) (uv : ℚ × ℚ) (r : Ray)
    (n : Vec3) (m : ℕ) :
    ((HitRecord.new t uv r n m).frontFace = true ↔ r.dir.dot n < 0) ∧
    ((HitRecord.new t uv r n m).normal = if r.dir.dot n < 0 then n else -n) ∧
    (HitRecord.new t uv r n m).normal.dot r.dir ≤ 0 := by
  unfold HitRecord.new
  by_cases h : r.dir.dot n < 0
  · rw [decide_eq_true h]
    refine ⟨by simp [h], by simp [h], ?_⟩
    simp only [if_true]
    rw [Vec3.dot_comm]
    linarith
  · rw [decide_eq_false h]
    refine ⟨by simp [h], by simp [h], ?_⟩
    simp only [Bool.false_eq_true, if_false]
    rw [Vec3.neg_dot, Vec3.dot_comm]
    push_neg at h
    linarith

/-- C3: `surrounding_box(A, B)` contains both inputs (its minimum is
componentwise below each input's minimum and its maximum above each input's
maximum), and it is minimal: any box containing both `A` and `B` contains
`surrounding_box(A, B)`. -/
theorem surroundingBox_contains_and_minimal (A B : Aabb) :
    (Aabb.surroundingBox A B).containsBox A ∧
    (Aabb.surroundingBox A B).containsBox B ∧
    ∀ C : Aabb, C.containsBox A → C.containsBox B →
      C.containsBox (Aabb.surroundingBox A B) := by
  refine ⟨Aabb.surroundingBox_contains_left A B,
    Aabb.surroundingBox_contains_right A B, ?_⟩
  intro C hA hB a
  rw [Aabb.surroundingBox_min_get, Aabb.surroundingBox_max_get]
  exact ⟨le_min (hA a).1 (hB a).1, max_le (hA a).2 (hB a).2⟩

/-- Witness for C3's minimality clause at concrete boxes. -/
theorem surroundingBox_contains_and_minimal_witness :
    (⟨⟨-1, -1, -1⟩, ⟨2, 2, 2⟩⟩ : Aabb).containsBox
      (Aabb.surroundingBox ⟨⟨0, 0, 0⟩, ⟨1, 1, 1⟩⟩ ⟨⟨-1, 0, 0⟩, ⟨2, 1, 1⟩⟩) :=
  (surroundingBox_contains_and_minimal ⟨⟨0, 0, 0⟩, ⟨1, 1, 1⟩⟩
      ⟨⟨-1, 0, 0⟩, ⟨2, 1, 1⟩⟩).2.2 ⟨⟨-1, -1, -1⟩, ⟨2, 2, 2⟩⟩
    (by intro a; fin_cases a <;>
      simp [Vec3.get_zero, Vec3.get_one, Vec3.get_two])
    (by intro a; fin_cases a <;>
      simp [Vec3.get_zero, Vec3.get_one, Vec3.get_two])

/-- C2 (code bug): at `c2Box`/`c2Ray` the source slab test returns `true`
although the cumulatively-tightened slab test of the spec returns `false`
(the three per-axis parameter intervals `[5,6]`, `[0.001..1]`, `[2,3]` are
pairwise disjoint, so no `t` is inside all three slabs simultaneously).  The
`let t_min`/`let t_max` bindings of aabb.rs:30-31 shadow the parameters
instead of updating them, so the tightening never reaches the next axis. -/
theorem aabbHit_shadowing_bug :
    Aabb.hit c2Box c2Ray (1 / 1000) 100 = true ∧
    Aabb.hitTightened c2Box c2Ray (1 / 1000) 100 = false := by
  constructor <;>
    norm_num [Aabb.hit, Aabb.axisHit, Aabb.hitTightened, c2Box, c2Ray,
      Vec3.get_zero, Vec3.get_one, Vec3.get_two, min_def, max_def]

/-- C6 (code bug): `random_int(0, 255)` with the perfectly possible draw
`rand::random::<i32>() = 2` yields `510`, far outside the range `0..=255`
required by the Fisher-Yates shuffle in `Perlin::permute` (perlin.rs:40-45);
`p.swap(i, 510)` on the 256-entry table panics. -/
theorem randomInt_escapes_range :
    randomInt 0 255 2 = 510 ∧ ¬(randomInt 0 255 2 ≤ 255) := by
  constructor <;> norm_num [randomInt]

/-- C8: the render worker emits a row result only if the abort flag was
observed `false` both before the sampling loop (main.rs:616) and again
immediately before sending (main.rs:642); once the flag is observed `true`,
no `ImageLine` is emitted for that row. -/
theorem workerRow_cancellation (obs1 obs2 : Bool) (renderLine : ℕ → List Vec3)
    (j : ℕ) :
    (∀ res, workerRow obs1 obs2 renderLine j = some res →
      obs1 = false ∧ obs2 = false) ∧
    ((obs1 = true ∨ obs2 = true) → workerRow obs1 obs2 renderLine j = none) := by
  unfold workerRow
  cases obs1 <;> cases obs2 <;> simp

/-- Witness for C8 at concrete observations. -/
theorem workerRow_cancellation_witness :
    workerRow true false (fun _ => []) 5 = none ∧
    workerRow false true (fun _ => []) 5 = none :=
  ⟨(workerRow_cancellation true false (fun _ => []) 5).2 (Or.inl rfl),
   (workerRow_cancellation false true (fun _ => []) 5).2 (Or.inr rfl)⟩

/-- C7: `ray_color` is total (the embedding is structurally recursive on the
bounce budget); in `Material` mode it returns black as soon as `depth ≤ 0`;
on a miss (when not cut off) it returns the configured background when one is
set and otherwise the vertical white-to-sky gradient; and each bounce recurses
with the depth counter decreased by exactly 1. -/
theorem rayColor_depth_and_miss (em : ℕ → ℚ → ℚ → Vec3 → Vec3)
    (sc : ℕ → Ray → HitRecord → Option (Vec3 × Ray))
    (world : Ray → Option HitRecord) (bg : Option Vec3) (sqrtf : ℚ → ℚ) :
    (∀ (d : ℤ) (r : Ray), d ≤ 0 →
      rayColor em sc world bg sqrtf (.material d) r = Vec3.zero) ∧
    (∀ (mode : RayColorMode) (r : Ray), mode.cutoff = false → world r = none →
      rayColor em sc world bg sqrtf mode r = bg.getD (skyGradient sqrtf r)) ∧
    (∀ (d : ℤ) (r : Ray) (rec : HitRecord) (att : Vec3) (scat : Ray), 0 < d →
      world r = some rec → sc rec.mat r rec = some (att, scat) →
      rayColor em sc world bg sqrtf (.material d) r =
        em rec.mat rec.u rec.v rec.p +
          att * rayColor em sc world bg sqrtf (.material (d - 1)) scat) := by
  refine ⟨?_, ?_, ?_⟩
  · intro d r hd
    have hcut : RayColorMode.cutoff (.material d) = true := by
      simp [RayColorMode.cutoff, hd]
    unfold rayColor rayColorFuel
    rw [hcut]
    simp
  · intro mode r hcut hmiss
    unfold rayColor rayColorFuel
    rw [hcut, hmiss]
    simp
  · intro d r rec att scat hd hw hs
    have hcut : RayColorMode.cutoff (.material d) = false := by
      simp [RayColorMode.cutoff]
      omega
    have hfuel : RayColorMode.fuel (.material d) = (d - 1).toNat + 1 := by
      simp [RayColorMode.fuel]
      omega
    have hfuel' : RayColorMode.fuel (.material (d - 1)) = (d - 1).toNat := by
      simp [RayColorMode.fuel]
    conv_lhs => unfold rayColor rayColorFuel
    simp only [hcut, Bool.false_eq_true, if_false, hw, hfuel, hs]
    unfold rayColor
    rw [hfuel']

/-- Witness for C7 at concrete inputs: depth 0 yields black, and a miss with
no background yields the sky gradient. -/
theorem rayColor_depth_and_miss_witness :
    rayColor em0 sc0 (fun _ => none) none ratSqrt (.material 0) c4wRay =
      Vec3.zero ∧
    rayColor em0 sc0 (fun _ => none) none ratSqrt .shadeNormal c4wRay =
      skyGradient ratSqrt c4wRay := by
  constructor
  · exact (rayColor_depth_and_miss em0 sc0 (fun _ => none) none ratSqrt).1 0
      c4wRay (by norm_num)
  · have h := (rayColor_depth_and_miss em0 sc0 (fun _ => none) none
      ratSqrt).2.1 .shadeNormal c4wRay (by simp [RayColorMode.cutoff]) rfl
    simpa using h

/-- C9 (amended): with aperture 0 (zero lens radius) and a degenerate shutter
interval, the sampled pixel value does not depend on the lens-disk and
shutter-time draws — the ShadeNormal shading itself consumes no randomness —
but it still depends on the pixel jitter draws (see the counterexample), so
it is not seed-independent.  Two RNG outcomes that agree on the jitters give
the same pixel value. -/
theorem renderPixel_lens_time_independent (em : ℕ → ℚ → ℚ → Vec3 → Vec3)
    (sc : ℕ → Ray → HitRecord → Option (Vec3 × Ray))
    (world : Ray → Option HitRecord) (bg : Option Vec3) (sqrtf : ℚ → ℚ)
    (mode : RayColorMode) (cam : Camera)
    (hlens : cam.lensRadius = 0) (htime : cam.time0 = cam.time1)
    (w h i j spp : ℕ) (dA dB : ℕ → SampleDraws)
    (hjit : ∀ n, (dA n).jitterU = (dB n).jitterU ∧
      (dA n).jitterV = (dB n).jitterV) :
    renderPixel em sc world bg sqrtf mode cam w h i j spp dA =
      renderPixel em sc world bg sqrtf mode cam w h i j spp dB := by
  have hray : ∀ (disk disk' : Vec3) (tu tu' s t : ℚ),
      cam.getRay disk tu s t = cam.getRay disk' tu' s t := by
    intro disk disk' tu tu' s t
    unfold Camera.getRay
    rw [hlens, ← htime]
    simp [Vec3.smul_def]
  unfold renderPixel
  apply List.foldl_ext
  intro acc n _
  dsimp only
  rw [(hjit n).1, (hjit n).2,
    hray (dA n).disk (dB n).disk (dA n).timeU (dB n).timeU]

/-- Witness for C9's amended theorem: with the concrete aperture-0 camera,
changing only the lens and shutter draws leaves the pixel value unchanged. -/
theorem renderPixel_lens_time_independent_witness :
    renderPixel em0 sc0 c9World none ratSqrt .shadeNormal c9Camera 3 3 1 1 1
      c9DrawsA =
    renderPixel em0 sc0 c9World none ratSqrt .shadeNormal c9Camera 3 3 1 1 1
      (fun _ => ⟨0, 0, ⟨9, 9, 9⟩, 4⟩) :=
  renderPixel_lens_time_independent em0 sc0 c9World none ratSqrt .shadeNormal
    c9Camera (by norm_num [c9Camera, Camera.create, c9Settings])
    (by norm_num [c9Camera, Camera.create, c9Settings])
    3 3 1 1 1 c9DrawsA (fun _ => ⟨0, 0, ⟨9, 9, 9⟩, 4⟩)
    (fun _ => ⟨rfl, rfl⟩)

/-- C9 (counterexample): with `samples_per_pixel = 1` and mode `ShadeNormal`
on the single-sphere scene, two RNG outcomes that differ only in the pixel
jitter produce different colours at the centre pixel `(1,1)` of a 3×3 image:
the jitter moves the sampled ray, which changes the hit normal.  The pixel is
therefore not seed-independent. -/
theorem c9_center_pixel_not_seed_independent :
    renderPixel em0 sc0 c9World none ratSqrt .shadeNormal c9Camera 3 3 1 1 1
      c9DrawsA = ⟨1 / 2, 1 / 2, 1⟩ ∧
    renderPixel em0 sc0 c9World none ratSqrt .shadeNormal c9Camera 3 3 1 1 1
      c9DrawsB = ⟨1 / 10, 1 / 2, 4 / 5⟩ ∧
    (⟨1 / 2, 1 / 2, 1⟩ : Vec3) ≠ ⟨1 / 10, 1 / 2, 4 / 5⟩ := by
  have hcam : c9Camera = ⟨⟨0, 0, 0⟩, ⟨-1, -1, -1⟩, ⟨2, 0, 0⟩, ⟨0, 2, 0⟩,
      ⟨1, 0, 0⟩, ⟨0, 1, 0⟩, ⟨0, 0, 1⟩, 0, 0, 0⟩ := by
    norm_num [c9Camera, Camera.create, c9Settings, Vec3.toUnit, Vec3.divQ,
      Vec3.smul_def, Vec3.sub_def, Vec3.cross, Vec3.lengthSquared, ratSqrt_one]
  have hworldA : c9World ⟨⟨0, 0, 0⟩, ⟨0, 0, -1⟩, 0⟩ =
      some ⟨6, 0, 0, ⟨0, 0, -6⟩, ⟨0, 0, 1⟩, false, 0⟩ := by
    norm_num [c9World, Sphere.hitInf, Sphere.disc, Sphere.root1, Sphere.root2,
      Sphere.halfB, Sphere.cCoeff, Sphere.aCoeff, Sphere.oc, Sphere.center,
      Sphere.stationary, c9Sphere, HitRecord.new, Ray.at, Vec3.dot,
      Vec3.lengthSquared, Vec3.divQ, Vec3.smul_def, Vec3.sub_def,
      Vec3.add_def, Vec3.neg_def, ratSqrt_nine, decide_eq_true_eq,
      decide_eq_false_iff_not]
  have hworldB : c9World ⟨⟨0, 0, 0⟩, ⟨1 / 2, 0, -1⟩, 0⟩ =
      some ⟨24 / 5, 0, 0, ⟨12 / 5, 0, -24 / 5⟩, ⟨-4 / 5, 0, 3 / 5⟩,
        false, 0⟩ := by
    norm_num [c9World, Sphere.hitInf, Sphere.disc, Sphere.root1, Sphere.root2,
      Sphere.halfB, Sphere.cCoeff, Sphere.aCoeff, Sphere.oc, Sphere.center,
      Sphere.stationary, c9Sphere, HitRecord.new, Ray.at, Vec3.dot,
      Vec3.lengthSquared, Vec3.divQ, Vec3.smul_def, Vec3.sub_def,
      Vec3.add_def, Vec3.neg_def, ratSqrt_nine, decide_eq_true_eq,
      decide_eq_false_iff_not]
  refine ⟨?_, ?_, ?_⟩
  · norm_num [renderPixel, List.range_succ, List.range_zero, hcam, c9DrawsA, Camera.getRay,
      Vec3.smul_def, Vec3.add_def, Vec3.sub_def, rayColor, rayColorFuel,
      RayColorMode.cutoff, RayColorMode.fuel, hworldA, Vec3.zero, Vec3.one]
  · norm_num [renderPixel, List.range_succ, List.range_zero, hcam, c9DrawsB, Camera.getRay,
      Vec3.smul_def, Vec3.add_def, Vec3.sub_def, rayColor, rayColorFuel,
      RayColorMode.cutoff, RayColorMode.fuel, hworldB, Vec3.zero, Vec3.one]
  · simp only [ne_eq, Vec3.mk.injEq, not_and]
    intro h
    norm_num at h

lemma Vec3.dot_self (v : Vec3) : v.dot v = v.lengthSquared := rfl

lemma Vec3.lengthSquared_smul (q : ℚ) (v : Vec3) :
    (q • v).lengthSquared = q ^ 2 * v.lengthSquared := by
  rw [Vec3.smul_def]; unfold Vec3.lengthSquared; ring

lemma Vec3.lengthSquared_neg (v : Vec3) :
    (-v).lengthSquared = v.lengthSquared := by
  rw [Vec3.neg_def]; unfold Vec3.lengthSquared; ring

lemma Vec3.smul_dot (q : ℚ) (v w : Vec3) : (q • v).dot w = q * (v.dot w) := by
  rw [Vec3.smul_def]; unfold Vec3.dot; ring

lemma Sphere.at_sub_center_lengthSquared (s : Sphere) (r : Ray) (t : ℚ) :
    (r.at t - s.center r.tm).lengthSquared =
      Sphere.aCoeff r * (t * t) + 2 * s.halfB r * t +
        (s.oc r).lengthSquared := by
  unfold Ray.at Sphere.aCoeff Sphere.halfB Vec3.lengthSquared Vec3.dot
  simp only [Sphere.oc, Vec3.add_def, Vec3.sub_def, Vec3.smul_def]
  ring

lemma Sphere.root_quad (sqrtf : ℚ → ℚ) (s : Sphere) (r : Ray)
    (ha : Sphere.aCoeff r ≠ 0)
    (hsq1 : sqrtf (s.disc r) * sqrtf (s.disc r) = s.disc r)
    (root : ℚ) (hroot : root = s.root1 sqrtf r ∨ root = s.root2 sqrtf r) :
    Sphere.aCoeff r * (root * root) + 2 * s.halfB r * root + s.cCoeff r = 0 := by
  have hd : s.disc r = s.halfB r * s.halfB r - Sphere.aCoeff r * s.cCoeff r :=
    rfl
  rcases hroot with h | h <;> subst h <;>
    [unfold Sphere.root1; unfold Sphere.root2] <;>
    field_simp <;>
    nlinarith [hsq1, hd]

lemma Sphere.root_onSphere (sqrtf : ℚ → ℚ) (s : Sphere) (r : Ray)
    (ha : Sphere.aCoeff r ≠ 0)
    (hsq1 : sqrtf (s.disc r) * sqrtf (s.disc r) = s.disc r)
    (root : ℚ) (hroot : root = s.root1 sqrtf r ∨ root = s.root2 sqrtf r) :
    (r.at root - s.center r.tm).lengthSquared = s.radius * s.radius := by
  rw [Sphere.at_sub_center_lengthSquared]
  have hq := Sphere.root_quad sqrtf s r ha hsq1 root hroot
  have hc : s.cCoeff r = (s.oc r).lengthSquared - s.radius * s.radius := rfl
  nlinarith [hq, hc]

lemma sphere_record_props (s : Sphere) (r : Ray) (root : ℚ)
    (honS : (r.at root - s.center r.tm).lengthSquared =
      s.radius * s.radius) :
    ((HitRecord.new root (0, 0) r
        ((r.at root - s.center r.tm).divQ s.radius) s.mat).p -
      s.center r.tm).lengthSquared = s.radius * s.radius ∧
    (s.radius ≠ 0 →
      (HitRecord.new root (0, 0) r
        ((r.at root - s.center r.tm).divQ s.radius) s.mat).normal.lengthSquared
        = 1) ∧
    (0 < s.radius →
      (HitRecord.new root (0, 0) r
        ((r.at root - s.center r.tm).divQ s.radius) s.mat).frontFace = true →
      0 < (HitRecord.new root (0, 0) r
        ((r.at root - s.center r.tm).divQ s.radius) s.mat).normal.dot
          ((HitRecord.new root (0, 0) r
            ((r.at root - s.center r.tm).divQ s.radius) s.mat).p -
            s.center r.tm)) := by
  have hp : (HitRecord.new root (0, 0) r
      ((r.at root - s.center r.tm).divQ s.radius) s.mat).p = r.at root := rfl
  refine ⟨by rw [hp]; exact honS, ?_, ?_⟩
  · intro hrad
    unfold HitRecord.new
    by_cases hf : r.dir.dot ((r.at root - s.center r.tm).divQ s.radius) < 0
    · rw [decide_eq_true hf]
      simp only [if_true]
      unfold Vec3.divQ
      rw [Vec3.lengthSquared_smul, honS]
      field_simp
      ring
    · rw [decide_eq_false hf]
      simp only [Bool.false_eq_true, if_false]
      unfold Vec3.divQ
      rw [Vec3.lengthSquared_neg, Vec3.lengthSquared_smul, honS]
      field_simp
      ring
  · intro hrad hf
    unfold HitRecord.new at hf ⊢
    simp only [decide_eq_true_eq] at hf
    rw [decide_eq_true hf]
    simp only [if_true]
    unfold Vec3.divQ
    rw [Vec3.smul_dot, Vec3.dot_self, honS]
    have : 1 / s.radius * (s.radius * s.radius) = s.radius := by
      field_simp
    rw [this]
    exact hrad

/-- C4 (amended): for a ray with nonzero direction and an exact square root
of the discriminant, `Sphere::hit` returns `none` exactly when the
discriminant is negative or neither closed-form root of
`|O + tD − C|² = r²` lies in `[t_min, t_max]`; otherwise the reported `t` is
the smaller root when it is in range and the larger root when not, the hit
point lies exactly on the sphere, the stored normal is unit-length whenever
the radius is nonzero, and — for spheres of POSITIVE radius — the normal
points from the centre to the hit point whenever `front_face` is true.  (The
original claim fails for negative radii, which the code deliberately uses
for hollow glass; see the counterexample.) -/
theorem sphere_hit_characterized (sqrtf : ℚ → ℚ) (s : Sphere) (r : Ray)
    (tMin tMax : ℚ) (ha : 0 < Sphere.aCoeff r)
    (hsq : 0 ≤ s.disc r →
      sqrtf (s.disc r) * sqrtf (s.disc r) = s.disc r ∧
        0 ≤ sqrtf (s.disc r)) :
    (Sphere.hit sqrtf s r tMin tMax = none ↔
      (s.disc r < 0 ∨
        (¬(tMin ≤ s.root1 sqrtf r ∧ s.root1 sqrtf r ≤ tMax) ∧
         ¬(tMin ≤ s.root2 sqrtf r ∧ s.root2 sqrtf r ≤ tMax)))) ∧
    (∀ h, Sphere.hit sqrtf s r tMin tMax = some h →
      s.root1 sqrtf r ≤ s.root2 sqrtf r ∧
      h.t = (if tMin ≤ s.root1 sqrtf r ∧ s.root1 sqrtf r ≤ tMax
             then s.root1 sqrtf r else s.root2 sqrtf r) ∧
      (tMin ≤ h.t ∧ h.t ≤ tMax) ∧
      (h.p - s.center r.tm).lengthSquared = s.radius * s.radius ∧
      (s.radius ≠ 0 → h.normal.lengthSquared = 1) ∧
      (0 < s.radius → h.frontFace = true →
        0 < h.normal.dot (h.p - s.center r.tm))) := by
  unfold Sphere.hit
  by_cases hd : s.disc r < 0
  · rw [if_pos hd]
    exact ⟨by simp [hd], fun h hsome => absurd hsome (by simp)⟩
  · have hd' : 0 ≤ s.disc r := not_lt.mp hd
    obtain ⟨hsq1, hsq2⟩ := hsq hd'
    have hle : s.root1 sqrtf r ≤ s.root2 sqrtf r := by
      unfold Sphere.root1 Sphere.root2
      rw [div_le_div_iff_of_pos_right ha]
      linarith
    rw [if_neg hd]
    by_cases h1 : s.root1 sqrtf r < tMin ∨ tMax < s.root1 sqrtf r
    · have h1' : ¬(tMin ≤ s.root1 sqrtf r ∧ s.root1 sqrtf r ≤ tMax) := by
        rcases h1 with hx | hx
        · exact fun hc => absurd hc.1 (not_le.mpr hx)
        · exact fun hc => absurd hc.2 (not_le.mpr hx)
      by_cases h2 : s.root2 sqrtf r < tMin ∨ tMax < s.root2 sqrtf r
      · have h2' : ¬(tMin ≤ s.root2 sqrtf r ∧ s.root2 sqrtf r ≤ tMax) := by
          rcases h2 with hx | hx
          · exact fun hc => absurd hc.1 (not_le.mpr hx)
          · exact fun hc => absurd hc.2 (not_le.mpr hx)
        simp only [if_pos h1, if_pos h2]
        exact ⟨by simp [h1', h2'], fun h hsome => absurd hsome (by simp)⟩
      · have h2'' : tMin ≤ s.root2 sqrtf r ∧ s.root2 sqrtf r ≤ tMax := by
          push_neg at h2
          exact ⟨h2.1, h2.2⟩
        simp only [if_pos h1, if_neg h2]
        constructor
        · constructor
          · intro hc
            exact absurd hc (by simp)
          · rintro (hx | ⟨_, hx⟩)
            · exact absurd hx hd
            · exact absurd h2'' hx
        · intro h hsome
          rw [Option.some_inj] at hsome
          subst hsome
          have hprops := sphere_record_props s r (s.root2 sqrtf r)
            (Sphere.root_onSphere sqrtf s r (ne_of_gt ha) hsq1 _ (Or.inr rfl))
          refine ⟨hle, by rw [if_neg h1']; rfl, ?_, hprops.1, hprops.2.1,
            hprops.2.2⟩
          exact h2''
    · have h1'' : tMin ≤ s.root1 sqrtf r ∧ s.root1 sqrtf r ≤ tMax := by
        push_neg at h1
        exact ⟨h1.1, h1.2⟩
      simp only [if_neg h1]
      constructor
      · constructor
        · intro hc
          exact absurd hc (by simp)
        · rintro (hx | ⟨hx, _⟩)
          · exact absurd hx hd
          · exact absurd h1'' hx
      · intro h hsome
        rw [Option.some_inj] at hsome
        subst hsome
        have hprops := sphere_record_props s r (s.root1 sqrtf r)
          (Sphere.root_onSphere sqrtf s r (ne_of_gt ha) hsq1 _ (Or.inl rfl))
        refine ⟨hle, by rw [if_pos h1'']; rfl, ?_, hprops.1, hprops.2.1,
          hprops.2.2⟩
        exact h1''

/-- Witness for C4's theorem at a concrete positive-radius sphere and ray
(discriminant 1, smaller root `t = 2` in `[0, 100]`). -/
theorem sphere_hit_characterized_witness :
    Sphere.hit ratSqrt c4wSphere c4wRay 0 100 = none ↔
      (c4wSphere.disc c4wRay < 0 ∨
        (¬(0 ≤ c4wSphere.root1 ratSqrt c4wRay ∧
            c4wSphere.root1 ratSqrt c4wRay ≤ 100) ∧
         ¬(0 ≤ c4wSphere.root2 ratSqrt c4wRay ∧
            c4wSphere.root2 ratSqrt c4wRay ≤ 100))) := by
  have hdisc : c4wSphere.disc c4wRay = 1 := by
    norm_num [Sphere.disc, Sphere.halfB, Sphere.cCoeff, Sphere.aCoeff,
      Sphere.oc, Sphere.center, Sphere.stationary, c4wSphere, c4wRay,
      Vec3.dot, Vec3.lengthSquared, Vec3.sub_def]
  exact (sphere_hit_characterized ratSqrt c4wSphere c4wRay 0 100
    (by norm_num [Sphere.aCoeff, Vec3.lengthSquared, c4wRay])
    (by intro _; rw [hdisc, ratSqrt_one]; norm_num)).1

/-- C4 (counterexample): for the negative-radius sphere `c4Sphere` (the
hollow-glass trick of `create_fixed_scene`), the ray `c4Ray` on `[2, 10]`
produces a hit with `front_face = true` whose stored normal points from the
hit point TOWARD the centre (dot product with centre-to-hit-point vector is
`-1 < 0`), refuting "outward-facing whenever front_face is true" as stated
for every sphere. -/
theorem sphere_negative_radius_inward_normal :
    (Sphere.hit ratSqrt c4Sphere c4Ray 2 10).map
      (fun h => (h.t, h.frontFace,
        h.normal.dot (h.p - c4Sphere.center c4Ray.tm))) =
      some (3, true, -1) ∧ ¬((0 : ℚ) < -1) := by
  constructor
  · norm_num [Sphere.hit, Sphere.disc, Sphere.root1, Sphere.root2,
      Sphere.halfB, Sphere.cCoeff, Sphere.aCoeff, Sphere.oc, Sphere.center,
      Sphere.stationary, c4Sphere, c4Ray, HitRecord.new, Ray.at, Vec3.dot,
      Vec3.lengthSquared, Vec3.divQ, Vec3.smul_def, Vec3.sub_def,
      Vec3.add_def, Vec3.neg_def, ratSqrt_one, decide_eq_true_eq,
      decide_eq_false_iff_not]
  · norm_num

lemma primHit_window_up {p : Prim} {t0 t1 : ℚ} (hw : PrimWf p t0 t1)
    {r : Ray} {a bSmall bBig : ℚ} (hle : bSmall ≤ bBig) {h : HitRecord}
    (hh : p.hit r a bSmall = some h) : p.hit r a bBig = some h := by
  cases hbig : p.hit r a bBig with
  | none =>
    rw [hw.miss_shrink r a bBig bSmall hle hbig] at hh
    exact absurd hh (by simp)
  | some h2 =>
    rcases hw.hit_shrink r a bBig bSmall hle h2 hbig with ⟨hin, hout⟩
    by_cases hc : h2.t ≤ bSmall
    · rw [hin hc] at hh
      rw [Option.some_inj] at hh
      rw [hh]
    · rw [hout (not_le.mp hc)] at hh
      exact absurd hh (by simp)

lemma listHitAux_ne_none_of_some (r : Ray) (a b : ℚ) :
    ∀ (ps : List Prim) (h0 : HitRecord),
      listHitAux r a b (some h0) ps ≠ none := by
  intro ps
  induction ps with
  | nil => intro h0 hc; exact absurd hc (by simp [listHitAux])
  | cons p rest ih =>
    intro h0 hc
    unfold listHitAux at hc
    dsimp only at hc
    simp only [Option.map_some', Option.getD_some] at hc
    cases hph : p.hit r a h0.t with
    | none => rw [hph] at hc; exact ih h0 hc
    | some h1 => rw [hph] at hc; exact ih h1 hc

lemma listHitAux_eq_none (t0 t1 : ℚ) (r : Ray) (a b : ℚ) :
    ∀ (ps : List Prim) (best : Option HitRecord),
      (∀ p ∈ ps, PrimWf p t0 t1) →
      listHitAux r a b best ps = none →
      best = none ∧ ∀ p ∈ ps, p.hit r a b = none := by
  intro ps
  induction ps with
  | nil =>
    intro best _ hnone
    exact ⟨hnone, by simp⟩
  | cons p rest ih =>
    intro best hwf hnone
    unfold listHitAux at hnone
    dsimp only at hnone
    cases hph : p.hit r a ((best.map (fun h => h.t)).getD b) with
    | some h1 =>
      rw [hph] at hnone
      exact absurd hnone (listHitAux_ne_none_of_some r a b rest h1)
    | none =>
      rw [hph] at hnone
      obtain ⟨hbest, hrest⟩ := ih best (fun q hq => hwf q (by simp [hq]))
        hnone
      subst hbest
      simp only [Option.map_none', Option.getD_none] at hph
      exact ⟨rfl, fun q hq => by
        rcases List.mem_cons.mp hq with hq | hq
        · rw [hq]; exact hph
        · exact hrest q hq⟩

lemma listHitAux_all_miss (r : Ray) (a b : ℚ) :
    ∀ (ps : List Prim), (∀ p ∈ ps, p.hit r a b = none) →
      listHitAux r a b none ps = none := by
  intro ps
  induction ps with
  | nil => intro _; rfl
  | cons p rest ih =>
    intro hmiss
    unfold listHitAux
    dsimp only
    simp only [Option.map_none', Option.getD_none]
    rw [hmiss p (by simp)]
    exact ih (fun q hq => hmiss q (by simp [hq]))

lemma listHitAux_spec (t0 t1 : ℚ) (r : Ray) (a b : ℚ) :
    ∀ (ps : List Prim) (best : Option HitRecord),
      (∀ p ∈ ps, PrimWf p t0 t1) →
      (∀ h0, best = some h0 → a ≤ h0.t ∧ h0.t ≤ b) →
      ∀ h, listHitAux r a b best ps = some h →
        (best = some h ∨ ∃ p ∈ ps, p.hit r a b = some h) ∧
        (∀ h0, best = some h0 → h.t ≤ h0.t) ∧
        (∀ p ∈ ps, ∀ h', p.hit r a b = some h' → h.t ≤ h'.t) ∧
        (a ≤ h.t ∧ h.t ≤ b) := by
  intro ps
  induction ps with
  | nil =>
    intro best _ hb h hres
    unfold listHitAux at hres
    refine ⟨Or.inl hres, fun h0 he => ?_, by simp, hb h hres⟩
    rw [hres] at he
    rw [Option.some_inj] at he
    rw [he]
  | cons p rest ih =>
    intro best hwf hb h hres
    have hwp : PrimWf p t0 t1 := hwf p (by simp)
    have hwrest : ∀ q ∈ rest, PrimWf q t0 t1 :=
      fun q hq => hwf q (by simp [hq])
    unfold listHitAux at hres
    dsimp only at hres
    cases best with
    | none =>
      simp only [Option.map_none', Option.getD_none] at hres
      cases hph : p.hit r a b with
      | some h1 =>
        rw [hph] at hres
        have hmem1 := hwp.hit_mem r a b h1 hph
        obtain ⟨hsrc, hbest, hmin, hrange⟩ := ih (some h1) hwrest
          (fun h0 he => by rw [Option.some_inj] at he; rw [← he]; exact hmem1)
          h hres
        refine ⟨?_, by simp, ?_, hrange⟩
        · rcases hsrc with he | ⟨q, hq, hhit⟩
          · rw [Option.some_inj] at he
            exact Or.inr ⟨p, by simp, by rw [← he]; exact hph⟩
          · exact Or.inr ⟨q, by simp [hq], hhit⟩
        · intro q hq h' hq'
          rcases List.mem_cons.mp hq with he | hq2
          · subst he
            rw [hph] at hq'
            rw [Option.some_inj] at hq'
            subst hq'
            exact hbest h1 rfl
          · exact hmin q hq2 h' hq'
      | none =>
        rw [hph] at hres
        obtain ⟨hsrc, hbest, hmin, hrange⟩ := ih none hwrest (by simp) h hres
        refine ⟨?_, by simp, ?_, hrange⟩
        · rcases hsrc with he | ⟨q, hq, hhit⟩
          · exact absurd he (by simp)
          · exact Or.inr ⟨q, by simp [hq], hhit⟩
        · intro q hq h' hq'
          rcases List.mem_cons.mp hq with he | hq2
          · subst he
            rw [hph] at hq'
            exact absurd hq' (by simp)
          · exact hmin q hq2 h' hq'
    | some h0 =>
      simp only [Option.map_some', Option.getD_some] at hres
      obtain ⟨ha0, hb0⟩ := hb h0 rfl
      cases hph : p.hit r a h0.t with
      | some h1 =>
        rw [hph] at hres
        have hmem1 := hwp.hit_mem r a h0.t h1 hph
        have hup : p.hit r a b = some h1 :=
          primHit_window_up hwp hb0 hph
        obtain ⟨hsrc, hbest, hmin, hrange⟩ := ih (some h1) hwrest
          (fun hx he => by
            rw [Option.some_inj] at he
            rw [← he]
            exact ⟨hmem1.1, le_trans hmem1.2 hb0⟩)
          h hres
        refine ⟨?_, ?_, ?_, hrange⟩
        · rcases hsrc with he | ⟨q, hq, hhit⟩
          · rw [Option.some_inj] at he
            exact Or.inr ⟨p, by simp, by rw [← he]; exact hup⟩
          · exact Or.inr ⟨q, by simp [hq], hhit⟩
        · intro hx he
          rw [Option.some_inj] at he
          subst he
          exact le_trans (hbest h1 rfl) hmem1.2
        · intro q hq h' hq'
          rcases List.mem_cons.mp hq with he | hq2
          · subst he
            rw [hup] at hq'
            rw [Option.some_inj] at hq'
            subst hq'
            exact hbest h1 rfl
          · exact hmin q hq2 h' hq'
      | none =>
        rw [hph] at hres
        obtain ⟨hsrc, hbest, hmin, hrange⟩ := ih (some h0) hwrest hb h hres
        refine ⟨?_, hbest, ?_, hrange⟩
        · rcases hsrc with he | ⟨q, hq, hhit⟩
          · exact Or.inl he
          · exact Or.inr ⟨q, by simp [hq], hhit⟩
        · intro q hq h' hq'
          rcases List.mem_cons.mp hq with he | hq2
          · subst he
            rcases hwp.hit_shrink r a b h0.t hb0 h' hq' with ⟨hin, hout⟩
            by_cases hc : h'.t ≤ h0.t
            · rw [hin hc] at hph
              exact absurd hph (by simp)
            · exact le_trans (hbest h0 rfl) (le_of_lt (not_le.mp hc))
          · exact hmin q hq2 h' hq'

lemma bvh_good_prims_box (t0 t1 : ℚ) :
    ∀ (tr : Bvh), tr.good t0 t1 →
      ∀ p ∈ tr.prims, (tr.boundingBox t0 t1).containsBox (p.box t0 t1) := by
  intro tr
  induction tr with
  | leaf q =>
    intro _ p hp
    simp only [Bvh.prims, List.mem_singleton] at hp
    subst hp
    exact Aabb.containsBox_refl _
  | node1 left abox ih =>
    intro hg p hp
    obtain ⟨hgl, hcl⟩ := hg
    exact Aabb.containsBox_trans hcl (ih hgl p hp)
  | node2 left right abox ihl ihr =>
    intro hg p hp
    obtain ⟨hgl, hgr, hcl, hcr⟩ := hg
    simp only [Bvh.prims, List.mem_append] at hp
    rcases hp with hp | hp
    · exact Aabb.containsBox_trans hcl (ihl hgl p hp)
    · exact Aabb.containsBox_trans hcr (ihr hgr p hp)

lemma bvh_hit_mem (t0 t1 : ℚ) :
    ∀ (tr : Bvh), (∀ p ∈ tr.prims, PrimWf p t0 t1) →
      ∀ (r : Ray) (a b : ℚ) (h : HitRecord), tr.hit r a b = some h →
        a ≤ h.t ∧ h.t ≤ b := by
  intro tr
  induction tr with
  | leaf p =>
    intro hwf r a b h hh
    exact (hwf p (by simp [Bvh.prims])).hit_mem r a b h hh
  | node1 left abox ih =>
    intro hwf r a b h hh
    unfold Bvh.hit at hh
    cases habox : abox.hit r a b with
    | false => rw [habox] at hh; simp at hh
    | true =>
      rw [habox] at hh
      simp only [Bool.not_true, Bool.false_eq_true, if_false] at hh
      exact ih (fun p hp => hwf p (by simpa [Bvh.prims] using hp)) r a b h hh
  | node2 left right abox ihl ihr =>
    intro hwf r a b h hh
    have hwl : ∀ p ∈ left.prims, PrimWf p t0 t1 :=
      fun p hp => hwf p (by simp [Bvh.prims, hp])
    have hwr : ∀ p ∈ right.prims, PrimWf p t0 t1 :=
      fun p hp => hwf p (by simp [Bvh.prims, hp])
    unfold Bvh.hit at hh
    cases habox : abox.hit r a b with
    | false => rw [habox] at hh; simp at hh
    | true =>
      rw [habox] at hh
      simp only [Bool.not_true, Bool.false_eq_true, if_false] at hh
      cases hl : left.hit r a b with
      | none =>
        rw [hl] at hh
        simp only [Option.map_none', Option.getD_none] at hh
        cases hr : right.hit r a b with
        | none => rw [hr] at hh; simp at hh
        | some rr =>
          rw [hr] at hh
          simp only [Option.some_inj] at hh
          subst hh
          exact ihr hwr r a b rr hr
      | some l' =>
        rw [hl] at hh
        simp only [Option.map_some', Option.getD_some] at hh
        have hbl := ihl hwl r a b l' hl
        cases hr : right.hit r a l'.t with
        | none =>
          rw [hr] at hh
          simp only [Option.some_inj] at hh
          subst hh
          exact hbl
        | some rr =>
          rw [hr] at hh
          dsimp only at hh
          have hbr := ihr hwr r a l'.t rr hr
          by_cases hlt : l'.t < rr.t
          · rw [if_pos hlt] at hh
            simp only [Option.some_inj] at hh
            subst hh
            exact hbl
          · rw [if_neg hlt] at hh
            simp only [Option.some_inj] at hh
            subst hh
            exact ⟨hbr.1, le_trans hbr.2 hbl.2⟩

lemma bvh_hit_sound (t0 t1 : ℚ) :
    ∀ (tr : Bvh), (∀ p ∈ tr.prims, PrimWf p t0 t1) →
      ∀ (r : Ray) (a b : ℚ) (h : HitRecord), tr.hit r a b = some h →
        ∃ p ∈ tr.prims, p.hit r a b = some h := by
  intro tr
  induction tr with
  | leaf p =>
    intro _ r a b h hh
    exact ⟨p, by simp [Bvh.prims], hh⟩
  | node1 left abox ih =>
    intro hwf r a b h hh
    unfold Bvh.hit at hh
    cases habox : abox.hit r a b with
    | false => rw [habox] at hh; simp at hh
    | true =>
      rw [habox] at hh
      simp only [Bool.not_true, Bool.false_eq_true, if_false] at hh
      exact ih (fun p hp => hwf p (by simpa [Bvh.prims] using hp)) r a b h hh
  | node2 left right abox ihl ihr =>
    intro hwf r a b h hh
    have hwl : ∀ p ∈ left.prims, PrimWf p t0 t1 :=
      fun p hp => hwf p (by simp [Bvh.prims, hp])
    have hwr : ∀ p ∈ right.prims, PrimWf p t0 t1 :=
      fun p hp => hwf p (by simp [Bvh.prims, hp])
    unfold Bvh.hit at hh
    cases habox : abox.hit r a b with
    | false => rw [habox] at hh; simp at hh
    | true =>
      rw [habox] at hh
      simp only [Bool.not_true, Bool.false_eq_true, if_false] at hh
      cases hl : left.hit r a b with
      | none =>
        rw [hl] at hh
        simp only [Option.map_none', Option.getD_none] at hh
        cases hr : right.hit r a b with
        | none => rw [hr] at hh; simp at hh
        | some rr =>
          rw [hr] at hh
          simp only [Option.some_inj] at hh
          subst hh
          obtain ⟨p, hp, hph⟩ := ihr hwr r a b rr hr
          exact ⟨p, by simp [Bvh.prims, hp], hph⟩
      | some l' =>
        rw [hl] at hh
        simp only [Option.map_some', Option.getD_some] at hh
        have hbl := bvh_hit_mem t0 t1 left hwl r a b l' hl
        cases hr : right.hit r a l'.t with
        | none =>
          rw [hr] at hh
          simp only [Option.some_inj] at hh
          subst hh
          obtain ⟨p, hp, hph⟩ := ihl hwl r a b l' hl
          exact ⟨p, by simp [Bvh.prims, hp], hph⟩
        | some rr =>
          rw [hr] at hh
          dsimp only at hh
          by_cases hlt : l'.t < rr.t
          · rw [if_pos hlt] at hh
            simp only [Option.some_inj] at hh
            subst hh
            obtain ⟨p, hp, hph⟩ := ihl hwl r a b l' hl
            exact ⟨p, by simp [Bvh.prims, hp], hph⟩
          · rw [if_neg hlt] at hh
            simp only [Option.some_inj] at hh
            subst hh
            obtain ⟨p, hp, hph⟩ := ihr hwr r a l'.t rr hr
            exact ⟨p, by simp [Bvh.prims, hp],
              primHit_window_up (hwr p hp) hbl.2 hph⟩

lemma bvh_hit_complete (t0 t1 : ℚ) :
    ∀ (tr : Bvh), (∀ p ∈ tr.prims, PrimWf p t0 t1) → tr.good t0 t1 →
      ∀ (r : Ray) (a b : ℚ), tr.hit r a b = none →
        ∀ p ∈ tr.prims, p.hit r a b = none := by
  intro tr
  induction tr with
  | leaf q =>
    intro _ _ r a b hh p hp
    simp only [Bvh.prims, List.mem_singleton] at hp
    subst hp
    exact hh
  | node1 left abox ih =>
    intro hwf hg r a b hh p hp
    obtain ⟨hgl, hcl⟩ := hg
    have hp' : p ∈ left.prims := by simpa [Bvh.prims] using hp
    unfold Bvh.hit at hh
    cases habox : abox.hit r a b with
    | true =>
      rw [habox] at hh
      simp only [Bool.not_true, Bool.false_eq_true, if_false] at hh
      exact ih (fun q hq => hwf q (by simpa [Bvh.prims] using hq)) hgl
        r a b hh p hp'
    | false =>
      cases hph : p.hit r a b with
      | none => rfl
      | some h' =>
        have hboxp := (hwf p hp).hit_box r a b h' hph
        have hcont : abox.containsBox (p.box t0 t1) :=
          Aabb.containsBox_trans hcl (bvh_good_prims_box t0 t1 left hgl p hp')
        have := Aabb.hit_mono hcont (hwf p hp).box_valid hboxp
        rw [habox] at this
        exact absurd this (by simp)
  | node2 left right abox ihl ihr =>
    intro hwf hg r a b hh p hp
    obtain ⟨hgl, hgr, hcl, hcr⟩ := hg
    have hwl : ∀ q ∈ left.prims, PrimWf q t0 t1 :=
      fun q hq => hwf q (by simp [Bvh.prims, hq])
    have hwr : ∀ q ∈ right.prims, PrimWf q t0 t1 :=
      fun q hq => hwf q (by simp [Bvh.prims, hq])
    unfold Bvh.hit at hh
    cases habox : abox.hit r a b with
    | false =>
      cases hph : p.hit r a b with
      | none => rfl
      | some h' =>
        have hboxp := (hwf p hp).hit_box r a b h' hph
        have hpmem : (Bvh.node2 left right abox).boundingBox t0 t1 = abox :=
          rfl
        have hcont : abox.containsBox (p.box t0 t1) := by
          have := bvh_good_prims_box t0 t1 (Bvh.node2 left right abox)
            ⟨hgl, hgr, hcl, hcr⟩ p hp
          rwa [hpmem] at this
        have := Aabb.hit_mono hcont (hwf p hp).box_valid hboxp
        rw [habox] at this
        exact absurd this (by simp)
    | true =>
      rw [habox] at hh
      simp only [Bool.not_true, Bool.false_eq_true, if_false] at hh
      cases hl : left.hit r a b with
      | some l' =>
        rw [hl] at hh
        simp only [Option.map_some', Option.getD_some] at hh
        cases hr : right.hit r a l'.t with
        | none => rw [hr] at hh; simp at hh
        | some rr =>
          rw [hr] at hh
          dsimp only at hh
          by_cases hlt : l'.t < rr.t
          · rw [if_pos hlt] at hh; simp at hh
          · rw [if_neg hlt] at hh; simp at hh
      | none =>
        rw [hl] at hh
        simp only [Option.map_none', Option.getD_none] at hh
        cases hr : right.hit r a b with
        | some rr => rw [hr] at hh; simp at hh
        | none =>
          simp only [Bvh.prims, List.mem_append] at hp
          rcases hp with hp | hp
          · exact ihl hwl hgl r a b hl p hp
          · exact ihr hwr hgr r a b hr p hp

lemma bvh_hit_minimal (t0 t1 : ℚ) :
    ∀ (tr : Bvh), (∀ p ∈ tr.prims, PrimWf p t0 t1) → tr.good t0 t1 →
      ∀ (r : Ray) (a b : ℚ) (h : HitRecord), tr.hit r a b = some h →
        ∀ p ∈ tr.prims, ∀ h', p.hit r a b = some h' → h.t ≤ h'.t := by
  intro tr
  induction tr with
  | leaf q =>
    intro _ _ r a b h hh p hp h' hq'
    simp only [Bvh.prims, List.mem_singleton] at hp
    subst hp
    have hh2 : p.hit r a b = some h := hh
    rw [hh2] at hq'
    rw [Option.some_inj] at hq'
    rw [hq']
  | node1 left abox ih =>
    intro hwf hg r a b h hh p hp h' hq'
    obtain ⟨hgl, _⟩ := hg
    have hp' : p ∈ left.prims := by simpa [Bvh.prims] using hp
    unfold Bvh.hit at hh
    cases habox : abox.hit r a b with
    | false => rw [habox] at hh; simp at hh
    | true =>
      rw [habox] at hh
      simp only [Bool.not_true, Bool.false_eq_true, if_false] at hh
      exact ih (fun q hq => hwf q (by simpa [Bvh.prims] using hq)) hgl
        r a b h hh p hp' h' hq'
  | node2 left right abox ihl ihr =>
    intro hwf hg r a b h hh p hp h' hq'
    obtain ⟨hgl, hgr, hcl, hcr⟩ := hg
    have hwl : ∀ q ∈ left.prims, PrimWf q t0 t1 :=
      fun q hq => hwf q (by simp [Bvh.prims, hq])
    have hwr : ∀ q ∈ right.prims, PrimWf q t0 t1 :=
      fun q hq => hwf q (by simp [Bvh.prims, hq])
    simp only [Bvh.prims, List.mem_append] at hp
    unfold Bvh.hit at hh
    cases habox : abox.hit r a b with
    | false => rw [habox] at hh; simp at hh
    | true =>
      rw [habox] at hh
      simp only [Bool.not_true, Bool.false_eq_true, if_false] at hh
      cases hl : left.hit r a b with
      | none =>
        rw [hl] at hh
        simp only [Option.map_none', Option.getD_none] at hh
        cases hr : right.hit r a b with
        | none => rw [hr] at hh; simp at hh
        | some rr =>
          rw [hr] at hh
          simp only [Option.some_inj] at hh
          subst hh
          rcases hp with hp | hp
          · rw [bvh_hit_complete t0 t1 left hwl hgl r a b hl p hp] at hq'
            exact absurd hq' (by simp)
          · exact ihr hwr hgr r a b rr hr p hp h' hq'
      | some l' =>
        rw [hl] at hh
        simp only [Option.map_some', Option.getD_some] at hh
        have hbl := bvh_hit_mem t0 t1 left hwl r a b l' hl
        cases hr : right.hit r a l'.t with
        | none =>
          rw [hr] at hh
          simp only [Option.some_inj] at hh
          subst hh
          rcases hp with hp | hp
          · exact ihl hwl hgl r a b l' hl p hp h' hq'
          · rcases (hwr p hp).hit_shrink r a b l'.t hbl.2 h' hq' with
              ⟨hin, hout⟩
            by_cases hc : h'.t ≤ l'.t
            · rw [bvh_hit_complete t0 t1 right hwr hgr r a l'.t hr p hp]
                at hin
              exact absurd (hin hc) (by simp)
            · exact le_of_lt (not_le.mp hc)
        | some rr =>
          rw [hr] at hh
          dsimp only at hh
          have hhle : h.t ≤ l'.t := by
            by_cases hlt : l'.t < rr.t
            · rw [if_pos hlt] at hh
              rw [Option.some_inj] at hh
              rw [← hh]
            · rw [if_neg hlt] at hh
              rw [Option.some_inj] at hh
              rw [← hh]
              exact le_trans (bvh_hit_mem t0 t1 right hwr r a l'.t rr hr).2
                (le_refl _)
          have hhrr : h.t ≤ rr.t := by
            by_cases hlt : l'.t < rr.t
            · rw [if_pos hlt] at hh
              rw [Option.some_inj] at hh
              rw [← hh]
              exact le_of_lt hlt
            · rw [if_neg hlt] at hh
              rw [Option.some_inj] at hh
              rw [← hh]
          rcases hp with hp | hp
          · exact le_trans hhle (ihl hwl hgl r a b l' hl p hp h' hq')
          · rcases (hwr p hp).hit_shrink r a b l'.t hbl.2 h' hq' with
              ⟨hin, hout⟩
            by_cases hc : h'.t ≤ l'.t
            · exact le_trans hhrr
                (ihr hwr hgr r a l'.t rr hr p hp h' (hin hc))
            · exact le_trans hhle (le_of_lt (not_le.mp hc))

lemma buildBvhFuel_spec (axisOf : List Prim → Fin 3) (t0 t1 : ℚ) :
    ∀ (fuel : ℕ) (l : List Prim) (tr : Bvh), l.length ≤ fuel →
      buildBvhFuel axisOf t0 t1 fuel l = some tr →
      tr.prims.Perm l ∧ tr.good t0 t1 := by
  intro fuel
  induction fuel with
  | zero =>
    intro l tr hlen hbuild
    cases l with
    | nil => exact absurd hbuild (by simp [buildBvhFuel])
    | cons p l1 => simp at hlen
  | succ f ih =>
    intro l tr hlen hbuild
    cases l with
    | nil => exact absurd hbuild (by simp [buildBvhFuel])
    | cons p l1 =>
      cases l1 with
      | nil =>
        have hb : buildBvhFuel axisOf t0 t1 (f + 1) [p] =
            some (.node1 (.leaf p) (p.box t0 t1)) := rfl
        rw [hb, Option.some_inj] at hbuild
        subst hbuild
        exact ⟨by simp [Bvh.prims],
          ⟨trivial, Aabb.containsBox_refl _⟩⟩
      | cons q l2 =>
        cases l2 with
        | nil =>
          by_cases hcmp : boxCompare p q (axisOf [p, q]) = Ordering.lt
          · have hb : buildBvhFuel axisOf t0 t1 (f + 1) [p, q] =
                some (.node2 (.leaf p) (.leaf q)
                  (Aabb.surroundingBox (p.box t0 t1) (q.box t0 t1))) := by
              unfold buildBvhFuel
              rw [if_pos hcmp]
            rw [hb, Option.some_inj] at hbuild
            subst hbuild
            refine ⟨by simp [Bvh.prims], trivial, trivial, ?_, ?_⟩
            · exact Aabb.surroundingBox_contains_left _ _
            · exact Aabb.surroundingBox_contains_right _ _
          · have hb : buildBvhFuel axisOf t0 t1 (f + 1) [p, q] =
                some (.node2 (.leaf q) (.leaf p)
                  (Aabb.surroundingBox (q.box t0 t1) (p.box t0 t1))) := by
              unfold buildBvhFuel
              rw [if_neg hcmp]
            rw [hb, Option.some_inj] at hbuild
            subst hbuild
            refine ⟨?_, trivial, trivial, ?_, ?_⟩
            · simp only [Bvh.prims, List.singleton_append]
              exact List.Perm.swap p q []
            · exact Aabb.surroundingBox_contains_left _ _
            · exact Aabb.surroundingBox_contains_right _ _
        | cons s l3 =>
          unfold buildBvhFuel at hbuild
          dsimp only at hbuild
          set l' : List Prim := p :: q :: s :: l3 with hl'
          set axis := axisOf l' with haxis
          set sorted := l'.mergeSort
            (fun a b => !(boxCompare a b axis == Ordering.gt)) with hsorted
          set mid := sorted.length / 2 with hmid
          have hslen : sorted.length = l'.length := List.length_mergeSort l'
          have hlen3 : 3 ≤ l'.length := by simp [hl']
          have hlenf : l'.length ≤ f + 1 := hlen
          have htake : (sorted.take mid).length ≤ f := by
            rw [List.length_take]
            omega
          have hdrop : (sorted.drop mid).length ≤ f := by
            rw [List.length_drop]
            omega
          cases hL : buildBvhFuel axisOf t0 t1 f (sorted.take mid) with
          | none => rw [hL] at hbuild; simp at hbuild
          | some lt =>
            cases hR : buildBvhFuel axisOf t0 t1 f (sorted.drop mid) with
            | none => rw [hL, hR] at hbuild; simp at hbuild
            | some rt =>
              rw [hL, hR] at hbuild
              dsimp only at hbuild
              rw [Option.some_inj] at hbuild
              subst hbuild
              obtain ⟨hpermL, hgoodL⟩ := ih (sorted.take mid) lt htake hL
              obtain ⟨hpermR, hgoodR⟩ := ih (sorted.drop mid) rt hdrop hR
              refine ⟨?_, hgoodL, hgoodR, ?_, ?_⟩
              · simp only [Bvh.prims]
                have h1 : (lt.prims ++ rt.prims).Perm
                    (sorted.take mid ++ sorted.drop mid) :=
                  List.Perm.append hpermL hpermR
                rw [List.take_append_drop] at h1
                exact h1.trans (List.mergeSort_perm l' _)
              · exact Aabb.surroundingBox_contains_left _ _
              · exact Aabb.surroundingBox_contains_right _ _

/-- C1 (amended): for any list of well-behaved primitives (hits lie in the
queried window and inside the primitive's valid bounding box, and shrinking
the window's upper end behaves consistently — the implicit `Hittable`
contract that real geometry satisfies), any BVH built from the list by
`BvhNode::new` (under any axis-oracle) and the linear `HittableList::hit`
scan UNCONDITIONALLY return `none` together exactly when no primitive hits
in range, and always agree on the nearest hit's `t` (the two `t`-projections
are equal); under the additional assumption that no two distinct hits share
the same `t` for this query, both return exactly the same record.  (Without
the no-tie assumption the two traversals can return hits of different
materials at the same `t`; see the counterexample.) -/
theorem bvh_hit_eq_listHit (axisOf : List Prim → Fin 3) (t0 t1 : ℚ)
    (ps : List Prim) (r : Ray) (a b : ℚ) (tr : Bvh)
    (hwf : ∀ p ∈ ps, PrimWf p t0 t1)
    (hbuild : buildBvh axisOf t0 t1 ps = some tr) :
    ((tr.hit r a b).map (fun h => h.t) =
      (listHit ps r a b).map (fun h => h.t)) ∧
    (listHit ps r a b = none ↔ ∀ p ∈ ps, p.hit r a b = none) ∧
    ((∀ p ∈ ps, ∀ q ∈ ps, ∀ h h', p.hit r a b = some h →
        q.hit r a b = some h' → h.t = h'.t → h = h') →
      tr.hit r a b = listHit ps r a b) := by
  obtain ⟨hperm, hgood⟩ :=
    buildBvhFuel_spec axisOf t0 t1 ps.length ps tr (le_refl _) hbuild
  have hwf' : ∀ p ∈ tr.prims, PrimWf p t0 t1 :=
    fun p hp => hwf p (hperm.mem_iff.mp hp)
  have hnone_iff :
      listHit ps r a b = none ↔ ∀ p ∈ ps, p.hit r a b = none := by
    constructor
    · intro hn
      exact (listHitAux_eq_none t0 t1 r a b ps none hwf hn).2
    · intro hmiss
      exact listHitAux_all_miss r a b ps hmiss
  have tree_none : listHit ps r a b = none → tr.hit r a b = none := by
    intro hlh
    have hmiss := hnone_iff.mp hlh
    cases htr : tr.hit r a b with
    | none => rfl
    | some hT =>
      obtain ⟨p, hp, hph⟩ := bvh_hit_sound t0 t1 tr hwf' r a b hT htr
      rw [hmiss p (hperm.mem_iff.mp hp)] at hph
      exact absurd hph (by simp)
  have tree_some : ∀ hL, listHit ps r a b = some hL →
      ∃ hT, tr.hit r a b = some hT ∧ hT.t = hL.t ∧
        ∃ q ∈ ps, q.hit r a b = some hT := by
    intro hL hlh
    obtain ⟨hsrc, _, hminL, _⟩ :=
      listHitAux_spec t0 t1 r a b ps none hwf (by simp) hL hlh
    rcases hsrc with he | ⟨p0, hp0, hp0h⟩
    · exact absurd he (by simp)
    · cases htr : tr.hit r a b with
      | none =>
        have hnone := bvh_hit_complete t0 t1 tr hwf' hgood r a b htr p0
          (hperm.mem_iff.mpr hp0)
        rw [hnone] at hp0h
        exact absurd hp0h (by simp)
      | some hT =>
        obtain ⟨q, hq, hqh⟩ := bvh_hit_sound t0 t1 tr hwf' r a b hT htr
        have hq' : q ∈ ps := hperm.mem_iff.mp hq
        have h1 : hT.t ≤ hL.t := bvh_hit_minimal t0 t1 tr hwf' hgood r a b
          hT htr p0 (hperm.mem_iff.mpr hp0) hL hp0h
        have h2 : hL.t ≤ hT.t := hminL q hq' hT hqh
        exact ⟨hT, rfl, le_antisymm h1 h2, q, hq', hqh⟩
  refine ⟨?_, hnone_iff, ?_⟩
  · cases hlh : listHit ps r a b with
    | none => rw [tree_none hlh]
    | some hL =>
      obtain ⟨hT, htr, hteq, _⟩ := tree_some hL hlh
      rw [htr]
      simp only [Option.map_some']
      rw [hteq]
  · intro hties
    cases hlh : listHit ps r a b with
    | none => exact tree_none hlh
    | some hL =>
      obtain ⟨hT, htr, hteq, q, hq, hqh⟩ := tree_some hL hlh
      obtain ⟨hsrc, _, _, _⟩ :=
        listHitAux_spec t0 t1 r a b ps none hwf (by simp) hL hlh
      rcases hsrc with he | ⟨p0, hp0, hp0h⟩
      · exact absurd he (by simp)
      · rw [htr, hties q hq p0 hp0 hT hL hqh hp0h hteq]

lemma pNone_wf (t0 t1 : ℚ) : PrimWf pNone t0 t1 := by
  refine ⟨?_, ?_, ?_, ?_, ?_⟩
  · intro r a b h hh
    exact absurd hh (by simp [pNone])
  · intro r a b b' _ h hh
    exact absurd hh (by simp [pNone])
  · intro r a b b' _ _
    rfl
  · intro r a b h hh
    exact absurd hh (by simp [pNone])
  · intro i
    fin_cases i <;>
      · show (0 : ℚ) ≤ 1
        norm_num

/-- Witness for C1's amended theorem with a trivially well-behaved
primitive. -/
theorem bvh_hit_eq_listHit_witness :
    (Bvh.node1 (.leaf pNone) (pNone.box 0 0)).hit c1Ray 0 100 =
      listHit [pNone] c1Ray 0 100 := by
  have hw : ∀ p ∈ [pNone], PrimWf p 0 0 := by
    intro p hp
    rw [List.mem_singleton] at hp
    subst hp
    exact pNone_wf 0 0
  have hties : ∀ p ∈ [pNone], ∀ q ∈ [pNone], ∀ h h',
      p.hit c1Ray 0 100 = some h → q.hit c1Ray 0 100 = some h' →
      h.t = h'.t → h = h' := by
    intro p hp q hq h h' hph hqh heq
    rw [List.mem_singleton] at hp
    subst hp
    exact absurd hph (by simp [pNone])
  exact (bvh_hit_eq_listHit (fun _ => 0) 0 0 [pNone] c1Ray 0 100
    (Bvh.node1 (.leaf pNone) (pNone.box 0 0)) hw rfl).2.2 hties

/-- C1 (counterexample): `c1Ray` first hits both `c1SphereA` (material 0)
and `c1SphereB` (material 1) at exactly `t = 2`.  The BVH built from
`[A, B]` orders `B` left of `A` (its box minimum is smaller on every axis),
queries the right child with the closed window `[0, left.t]`, and on the tie
`left.t < right.t = false` keeps the RIGHT hit — sphere A.  The linear
`HittableList::hit` scan keeps the LAST accepted hit — sphere B.  Same `t`,
different material: the traversals do not return the same nearest-hit
result. -/
theorem c1_tie_materials_differ :
    (buildBvh (fun _ => 0) 0 0
        [spherePrim c1SphereA, spherePrim c1SphereB]).map
      (fun tr => tr.hit c1Ray 0 100) =
      some (some ⟨2, 0, 0, ⟨4, 2, 4⟩, ⟨-2/3, -1/3, -2/3⟩, true, 0⟩) ∧
    listHit [spherePrim c1SphereA, spherePrim c1SphereB] c1Ray 0 100 =
      some ⟨2, 0, 0, ⟨4, 2, 4⟩, ⟨-2/3, -1/3, -2/3⟩, true, 1⟩ ∧
    (0 : ℕ) ≠ 1 := by
  have hboxA : (spherePrim c1SphereA).box 0 0 = ⟨⟨3, 0, 3⟩, ⟨9, 6, 9⟩⟩ := by
    norm_num [spherePrim, Sphere.boundingBox, Sphere.center, Sphere.stationary,
      c1SphereA, Aabb.surroundingBox, Vec3.sub_def, Vec3.add_def, min_def,
      max_def]
  have hboxB : (spherePrim c1SphereB).box 0 0 =
      ⟨⟨1, -4, 1⟩, ⟨19, 14, 19⟩⟩ := by
    norm_num [spherePrim, Sphere.boundingBox, Sphere.center, Sphere.stationary,
      c1SphereB, Aabb.surroundingBox, Vec3.sub_def, Vec3.add_def, min_def,
      max_def]
  have hcmp : boxCompare (spherePrim c1SphereA) (spherePrim c1SphereB) 0 =
      Ordering.gt := by
    unfold boxCompare
    rw [hboxA, hboxB]
    rw [compare_gt_iff_gt]
    show (1 : ℚ) < 3
    norm_num
  have hbuild : buildBvh (fun _ => 0) 0 0
      [spherePrim c1SphereA, spherePrim c1SphereB] =
      some (.node2 (.leaf (spherePrim c1SphereB))
        (.leaf (spherePrim c1SphereA)) ⟨⟨1, -4, 1⟩, ⟨19, 14, 19⟩⟩) := by
    have h0 : buildBvh (fun _ => 0) 0 0
        [spherePrim c1SphereA, spherePrim c1SphereB] =
        (if boxCompare (spherePrim c1SphereA) (spherePrim c1SphereB) 0 =
            Ordering.lt then
          some (.node2 (.leaf (spherePrim c1SphereA))
            (.leaf (spherePrim c1SphereB))
            (Aabb.surroundingBox ((spherePrim c1SphereA).box 0 0)
              ((spherePrim c1SphereB).box 0 0)))
        else
          some (.node2 (.leaf (spherePrim c1SphereB))
            (.leaf (spherePrim c1SphereA))
            (Aabb.surroundingBox ((spherePrim c1SphereB).box 0 0)
              ((spherePrim c1SphereA).box 0 0)))) := rfl
    rw [h0, if_neg (by rw [hcmp]; simp), hboxA, hboxB]
    norm_num [Aabb.surroundingBox, min_def, max_def]
  have hitA100 : (spherePrim c1SphereA).hit c1Ray 0 100 =
      some ⟨2, 0, 0, ⟨4, 2, 4⟩, ⟨-2/3, -1/3, -2/3⟩, true, 0⟩ := by
    norm_num [spherePrim, Sphere.hit, Sphere.disc, Sphere.root1, Sphere.root2,
      Sphere.halfB, Sphere.cCoeff, Sphere.aCoeff, Sphere.oc, Sphere.center,
      Sphere.stationary, c1SphereA, c1Ray, HitRecord.new, Ray.at, Vec3.dot,
      Vec3.lengthSquared, Vec3.divQ, Vec3.smul_def, Vec3.sub_def, Vec3.add_def,
      Vec3.neg_def, ratSqrt_81, decide_eq_true_eq, decide_eq_false_iff_not]
  have hitA2 : (spherePrim c1SphereA).hit c1Ray 0 2 =
      some ⟨2, 0, 0, ⟨4, 2, 4⟩, ⟨-2/3, -1/3, -2/3⟩, true, 0⟩ := by
    norm_num [spherePrim, Sphere.hit, Sphere.disc, Sphere.root1, Sphere.root2,
      Sphere.halfB, Sphere.cCoeff, Sphere.aCoeff, Sphere.oc, Sphere.center,
      Sphere.stationary, c1SphereA, c1Ray, HitRecord.new, Ray.at, Vec3.dot,
      Vec3.lengthSquared, Vec3.divQ, Vec3.smul_def, Vec3.sub_def, Vec3.add_def,
      Vec3.neg_def, ratSqrt_81, decide_eq_true_eq, decide_eq_false_iff_not]
  have hitB100 : (spherePrim c1SphereB).hit c1Ray 0 100 =
      some ⟨2, 0, 0, ⟨4, 2, 4⟩, ⟨-2/3, -1/3, -2/3⟩, true, 1⟩ := by
    norm_num [spherePrim, Sphere.hit, Sphere.disc, Sphere.root1, Sphere.root2,
      Sphere.halfB, Sphere.cCoeff, Sphere.aCoeff, Sphere.oc, Sphere.center,
      Sphere.stationary, c1SphereB, c1Ray, HitRecord.new, Ray.at, Vec3.dot,
      Vec3.lengthSquared, Vec3.divQ, Vec3.smul_def, Vec3.sub_def, Vec3.add_def,
      Vec3.neg_def, ratSqrt_729, decide_eq_true_eq, decide_eq_false_iff_not]
  have hitB2 : (spherePrim c1SphereB).hit c1Ray 0 2 =
      some ⟨2, 0, 0, ⟨4, 2, 4⟩, ⟨-2/3, -1/3, -2/3⟩, true, 1⟩ := by
    norm_num [spherePrim, Sphere.hit, Sphere.disc, Sphere.root1, Sphere.root2,
      Sphere.halfB, Sphere.cCoeff, Sphere.aCoeff, Sphere.oc, Sphere.center,
      Sphere.stationary, c1SphereB, c1Ray, HitRecord.new, Ray.at, Vec3.dot,
      Vec3.lengthSquared, Vec3.divQ, Vec3.smul_def, Vec3.sub_def, Vec3.add_def,
      Vec3.neg_def, ratSqrt_729, decide_eq_true_eq, decide_eq_false_iff_not]
  have haabb : Aabb.hit ⟨⟨1, -4, 1⟩, ⟨19, 14, 19⟩⟩ c1Ray 0 100 = true := by
    norm_num [Aabb.hit, Aabb.axisHit, c1Ray, Vec3.get_zero, Vec3.get_one,
      Vec3.get_two, min_def, max_def]
  refine ⟨?_, ?_, by norm_num⟩
  · rw [hbuild]
    simp only [Option.map_some', Bvh.hit, haabb, hitB100, hitA2,
      Option.getD_some, Bool.not_true, Bool.false_eq_true, if_false]
    norm_num
  · unfold listHit listHitAux
    simp only [Option.map_none', Option.getD_none, hitA100]
    unfold listHitAux
    simp only [Option.map_some', Option.getD_some, hitB2]
    unfold listHitAux
    rfl
